import Mathlib

/-!
Verification of the Prompt-to-JSON Enhancer backend
(`backend/services.py`, `backend/models.py`, `backend/main.py`).

Python strings are modelled as `List Char` (sequences of code points).
Parsed JSON documents are modelled by the inductive type `Json`;
`json.loads` is modelled by `jsonParse`, a recursive-descent parser with
these documented restrictions: JSON numbers are restricted to integers
(no fraction/exponent part) and the string escape `\uXXXX` is not
supported.  Python `dict`s are insertion-ordered association lists; an
insert of an existing key updates its value in place, as in CPython.
-/

/-- A parsed JSON document: the possible results of `json.loads`
(`str`, `int`, `bool`, `None`, `list`, `dict`). -/
inductive Json where
  | str (s : List Char)
  | num (n : Int)
  | bool (b : Bool)
  | null
  | arr (elems : List Json)
  | obj (entries : List (List Char × Json))

/-- `isinstance(v, list)`. -/
def Json.isArr : Json → Bool
  | .arr _ => true
  | _ => false

/-- `isinstance(v, dict)`. -/
def Json.isObj : Json → Bool
  | .obj _ => true
  | _ => false

/-- Lookup in a Python `dict` modelled as an insertion-ordered
association list (first matching entry; lists built by `objInsert`
never hold duplicate keys). -/
def objFind? (es : List (List Char × Json)) (k : List Char) : Option Json :=
  match es with
  | [] => none
  | (k0, v0) :: rest => if k0 = k then some v0 else objFind? rest k

/-- `d[k] = v` on a Python `dict`: update the existing entry in place,
or append a new entry at the end (CPython insertion order). -/
def objInsert (es : List (List Char × Json)) (k : List Char) (v : Json) :
    List (List Char × Json) :=
  match es with
  | [] => [(k, v)]
  | (k0, v0) :: rest =>
    if k0 = k then (k0, v) :: rest else (k0, v0) :: objInsert rest k v

/-- `d.setdefault(k, v)` on the entry list of a Python `dict`. -/
def esSetdefault (es : List (List Char × Json)) (k : List Char) (v : Json) :
    List (List Char × Json) :=
  if (objFind? es k).isSome then es else es ++ [(k, v)]

/-- `d.get(k, dflt)` on the entry list of a Python `dict`. -/
def objGetD (es : List (List Char × Json)) (k : List Char) (dflt : Json) : Json :=
  (objFind? es k).getD dflt

/-- Python substring test `needle in hay`. -/
def hasSubstring (hay needle : List Char) : Bool :=
  if needle.isPrefixOf hay then true
  else match hay with
    | [] => false
    | _ :: t => hasSubstring t needle

/-- Python `key in container` for a `str` key against a parsed-JSON
value: substring test on `str`, key membership on `dict`, element
equality on `list` (a `str` compares equal only to equal `str`s), and a
`TypeError` (modelled as `.error ()`) on non-container values. -/
def pyContains (j : Json) (key : List Char) : Except Unit Bool :=
  match j with
  | .obj es => .ok (objFind? es key).isSome
  | .str s => .ok (hasSubstring s key)
  | .arr xs => .ok (xs.any fun e => match e with | .str s => s = key | _ => false)
  | _ => .error ()

/-- Python `container[key]` for a `str` key: `dict` lookup; indexing a
`str`, `list` or scalar with a `str` key is a `TypeError`.  (A `KeyError`
on a `dict` is also modelled as `.error ()`; the code only indexes after
a successful membership check, so it cannot arise.) -/
def pyGetItem (j : Json) (key : List Char) : Except Unit Json :=
  match j with
  | .obj es => match objFind? es key with
    | none => .error ()
    | some v => .ok v
  | _ => .error ()

/-- Python `container[key] = v` for a `str` key, as a functional update:
only `dict`s support `str`-keyed item assignment; anything else is a
`TypeError`. -/
def pySetItem (j : Json) (key : List Char) (v : Json) : Except Unit Json :=
  match j with
  | .obj es => .ok (.obj (objInsert es key v))
  | _ => .error ()

/-! ### `json.loads`, restricted as documented above -/

/-- JSON inter-token whitespace (the four characters `json.loads` skips). -/
def jsonWs (c : Char) : Bool :=
  c = ' ' || c = '\t' || c = '\n' || c = '\r'

/-- Drop leading JSON whitespace. -/
def skipWs : List Char → List Char
  | [] => []
  | c :: rest => if jsonWs c then skipWs rest else c :: rest

/-- The character denoted by a JSON string escape `\c` (no `\uXXXX`). -/
def escChar (e : Char) : Option Char :=
  if e = '"' || e = '\\' || e = '/' then some e
  else if e = 'n' then some '\n'
  else if e = 't' then some '\t'
  else if e = 'r' then some '\r'
  else if e = 'b' then some '\x08'
  else if e = 'f' then some '\x0c'
  else none

/-- Parse the body of a JSON string after the opening quote; returns the
decoded content and the input after the closing quote. -/
def parseStringBody : List Char → Option (List Char × List Char)
  | [] => none
  | '\\' :: rest =>
    match rest with
    | [] => none
    | e :: rest2 =>
      match escChar e, parseStringBody rest2 with
      | some c, some (s, r) => some (c :: s, r)
      | _, _ => none
  | c :: rest =>
    if c = '"' then some ([], rest)
    else if c.val < 32 then none
    else match parseStringBody rest with
      | some (s, r) => some (c :: s, r)
      | none => none

/-- Numeric value of a digit run. -/
def digitsVal (ds : List Char) : Nat :=
  ds.foldl (fun acc c => 10 * acc + (c.toNat - '0'.toNat)) 0

/-- Parse a digit run (no leading zero, no fraction/exponent — the
modelled subset). -/
def parseDigits (l : List Char) : Option (List Char × List Char) :=
  if (l.takeWhile Char.isDigit).isEmpty then none
  else if 1 < (l.takeWhile Char.isDigit).length &&
      (l.takeWhile Char.isDigit).head? = some '0' then none
  else match l.dropWhile Char.isDigit with
    | '.' :: _ => none
    | 'e' :: _ => none
    | 'E' :: _ => none
    | _ => some (l.takeWhile Char.isDigit, l.dropWhile Char.isDigit)

/-- Parse a JSON integer literal (optional minus, then a digit run). -/
def parseNumber (l : List Char) : Option (Json × List Char) :=
  match l with
  | '-' :: r =>
    (match parseDigits r with
     | some (ds, rest) => some (.num (-(digitsVal ds : Int)), rest)
     | none => none)
  | _ =>
    match parseDigits l with
    | some (ds, rest) => some (.num (digitsVal ds : Int), rest)
    | none => none

mutual

/-- Parse one JSON value (fuel-indexed recursive descent). -/
def parseVal : Nat → List Char → Option (Json × List Char)
  | 0, _ => none
  | fuel + 1, l =>
    match skipWs l with
    | [] => none
    | '"' :: rest =>
      match parseStringBody rest with
      | some (s, r) => some (.str s, r)
      | none => none
    | '{' :: rest =>
      match skipWs rest with
      | '}' :: r2 => some (.obj [], r2)
      | r => parseMembers fuel r []
    | '[' :: rest =>
      match skipWs rest with
      | ']' :: r2 => some (.arr [], r2)
      | r => parseElems fuel r []
    | 't' :: rest =>
      if ['r', 'u', 'e'].isPrefixOf rest then some (.bool true, rest.drop 3) else none
    | 'f' :: rest =>
      if ['a', 'l', 's', 'e'].isPrefixOf rest then some (.bool false, rest.drop 4) else none
    | 'n' :: rest =>
      if ['u', 'l', 'l'].isPrefixOf rest then some (.null, rest.drop 3) else none
    | l' => parseNumber l'

/-- Parse the members of a JSON object after `{` (duplicate keys update
in place, as `json.loads` does). -/
def parseMembers : Nat → List Char → List (List Char × Json) →
    Option (Json × List Char)
  | 0, _, _ => none
  | fuel + 1, l, acc =>
    match l with
    | '"' :: rest =>
      match parseStringBody rest with
      | none => none
      | some (k, u1) =>
        match skipWs u1 with
        | ':' :: u2 =>
          match parseVal fuel u2 with
          | none => none
          | some (v, u3) =>
            match skipWs u3 with
            | ',' :: u4 => parseMembers fuel (skipWs u4) (objInsert acc k v)
            | '}' :: u4 => some (.obj (objInsert acc k v), u4)
            | _ => none
        | _ => none
    | _ => none

/-- Parse the elements of a JSON array after `[`. -/
def parseElems : Nat → List Char → List Json → Option (Json × List Char)
  | 0, _, _ => none
  | fuel + 1, l, acc =>
    match parseVal fuel l with
    | none => none
    | some (v, r1) =>
      match skipWs r1 with
      | ',' :: r2 => parseElems fuel r2 (acc ++ [v])
      | ']' :: r2 => some (.arr (acc ++ [v]), r2)
      | _ => none

end

/-- `json.loads` (restricted as documented): parse one value and require
only whitespace after it (otherwise Python raises "Extra data"). -/
def jsonParse (s : List Char) : Option Json :=
  match parseVal (s.length + 1) s with
  | some (v, rest) => if (skipWs rest).isEmpty then some v else none
  | none => none

/-! ### Python string helpers used by `_parse_grok_response` -/

/-- ASCII whitespace stripped by Python `str.strip()` / split by
`str.split()` (the non-ASCII Unicode spaces Python also accepts are out
of the modelled character set). -/
def pyIsSpace (c : Char) : Bool :=
  c = ' ' || c = '\t' || c = '\n' || c = '\r' || c = '\x0b' || c = '\x0c'

/-- Python `s.strip()`. -/
def pyStrip (l : List Char) : List Char :=
  ((l.dropWhile pyIsSpace).reverse.dropWhile pyIsSpace).reverse

/-- Python `s.startswith(p)`. -/
def pyStartswith (l p : List Char) : Bool :=
  p.isPrefixOf l

/-- Python `s.endswith(p)`. -/
def pyEndswith (l p : List Char) : Bool :=
  p.reverse.isPrefixOf l.reverse

/-- Python `s.split()`: split on runs of whitespace, no empty tokens. -/
def pyWordsAux : List Char → List Char → List (List Char)
  | [], cur => if cur.isEmpty then [] else [cur.reverse]
  | c :: rest, cur =>
    if pyIsSpace c then
      if cur.isEmpty then pyWordsAux rest [] else cur.reverse :: pyWordsAux rest []
    else pyWordsAux rest (c :: cur)

/-- The whitespace-separated tokens of a Python string (`s.split()`). -/
def pyWords (l : List Char) : List (List Char) :=
  pyWordsAux l []

mutual

/-- Python `repr` of a parsed-JSON value, used by `str` on containers.
Approximation: string contents are quoted verbatim (the escaping `repr`
performs on quotes/backslashes/control characters is not modelled). -/
def pyRepr : Json → List Char
  | .str s => '\'' :: (s ++ ['\''])
  | .num n => (toString n).toList
  | .bool b => (if b then "True" else "False").toList
  | .null => "None".toList
  | .arr xs => '[' :: (pyReprElems xs ++ [']'])
  | .obj es => '\x7b' :: (pyReprEntries es ++ ['\x7d'])

/-- `", "`-separated `repr`s of list elements. -/
def pyReprElems : List Json → List Char
  | [] => []
  | [x] => pyRepr x
  | x :: rest => pyRepr x ++ ',' :: ' ' :: pyReprElems rest

/-- `", "`-separated `'key': repr` pairs of dict entries. -/
def pyReprEntries : List (List Char × Json) → List Char
  | [] => []
  | [(k, v)] => '\'' :: (k ++ '\'' :: ':' :: ' ' :: pyRepr v)
  | (k, v) :: rest => '\'' :: (k ++ '\'' :: ':' :: ' ' :: pyRepr v) ++ ',' :: ' ' :: pyReprEntries rest

end

/-- Python `str(v)` of a parsed-JSON value. -/
def pyStr : Json → List Char
  | .str s => s
  | v => pyRepr v

/-! ### The normalizer `_parse_grok_response` (services.py lines 193-249) -/

/-- The distinguishable ways the service code can raise.
`valueError` is the spec's ParseError (`ValueError` raised for a JSON
decode failure or a missing required field); `typeError` covers the
`TypeError`s of `str`-keyed indexing/assignment on non-`dict` values;
`attributeError` is `.split()` on a non-`str`; `validationError` is a
pydantic model rejection; `upstreamError` is any exception raised by
`_call_grok_api`. -/
inductive PyErr where
  | valueError
  | typeError
  | attributeError
  | validationError
  | upstreamError
deriving DecidableEq, Repr

/-- Re-raise a `TypeError` from the dynamic `dict` operations. -/
def liftTE : Except Unit α → Except PyErr α
  | .ok a => .ok a
  | .error () => .error .typeError

def epKey : List Char := "enhanced_prompt".toList
def psKey : List Char := "prompt_structure".toList
def contextKey : List Char := "context".toList
def objectiveKey : List Char := "objective".toList
def reqKey : List Char := "requirements".toList
def taKey : List Char := "target_audience".toList
def ofKey : List Char := "output_format".toList
def tsKey : List Char := "tone_and_style".toList
def exKey : List Char := "examples".toList
def conKey : List Char := "constraints".toList
def summaryKey : List Char := "improvement_summary".toList
def estKey : List Char := "estimated_improvement".toList
def tipsKey : List Char := "usage_tips".toList

/-- `structure_fields` (services.py line 220). -/
def structureFields : List (List Char) :=
  [contextKey, objectiveKey, reqKey, taKey, ofKey, tsKey]

/-- `f"Not specified - \x7bfield\x7d"` (services.py line 223). -/
def notSpecified (f : List Char) : List Char :=
  "Not specified - ".toList ++ f

/-- Default `improvement_summary` (services.py line 226). -/
def defaultSummary : Json :=
  .arr [.str "Prompt structure enhanced".toList,
        .str "Context and requirements added".toList,
        .str "Output format specified".toList]

/-- Default `usage_tips` (services.py line 228). -/
def defaultTips : Json :=
  .arr [.str "Use this enhanced prompt as-is".toList,
        .str "Adjust requirements based on your specific needs".toList]

/-- The fence marker `"```json"`. -/
def fenceJson : List Char := "```json".toList

/-- The fence marker `"```"`. -/
def fence : List Char := "```".toList

/-- Markdown-fence stripping applied to the raw reply (services.py lines
197-208): strip, drop a leading `"```json"`, then a leading `"```"`,
then a trailing `"```"`, strip again. -/
def stripMarkers (g : List Char) : List Char :=
  let t0 := pyStrip g
  let t1 := if pyStartswith t0 fenceJson then t0.drop 7 else t0
  let t2 := if pyStartswith t1 fence then t1.drop 3 else t1
  let t3 := if pyEndswith t2 fence then t2.take (t2.length - 3) else t2
  pyStrip t3

/-- Required-field loop (services.py lines 214-217): `ValueError` when a
field is absent; the membership test itself is a `TypeError` on
non-container values. -/
def checkRequired (p : Json) : Except PyErr Unit :=
  match pyContains p epKey with
  | .error () => .error .typeError
  | .ok false => .error .valueError
  | .ok true =>
    match pyContains p psKey with
    | .error () => .error .typeError
    | .ok false => .error .valueError
    | .ok true => .ok ()

/-- One iteration of the placeholder loop (services.py lines 221-223):
`if field not in parsed_data["prompt_structure"]:
parsed_data["prompt_structure"][field] = f"Not specified - \x7bfield\x7d"`. -/
def fillStructureField (j : Json) (f : List Char) : Except Unit Json :=
  match pyGetItem j psKey with
  | .error () => .error ()
  | .ok ps =>
    match pyContains ps f with
    | .error () => .error ()
    | .ok true => .ok j
    | .ok false =>
      match pySetItem ps f (.str (notSpecified f)) with
      | .error () => .error ()
      | .ok ps2 => pySetItem j psKey ps2

/-- The placeholder loop over the six structure fields. -/
def fillFields (j : Json) : Except Unit Json :=
  structureFields.foldlM fillStructureField j

/-- The three `setdefault` calls (services.py lines 226-228).  Only
reached with `j` a `dict` (a non-`dict` never survives `fillFields`
followed by `coerceRequirements`); on a non-`dict` it is the identity. -/
def setDefaults (j : Json) : Json :=
  match j with
  | .obj es =>
    .obj (esSetdefault (esSetdefault (esSetdefault es summaryKey defaultSummary)
            estKey (.num 75)) tipsKey defaultTips)
  | _ => j

/-- Requirements coercion (services.py lines 230-232): wrap a non-list
value as a one-element list of its string form. -/
def coerceRequirements (j : Json) : Except Unit Json :=
  match pyGetItem j psKey with
  | .error () => .error ()
  | .ok ps =>
    match pyGetItem ps reqKey with
    | .error () => .error ()
    | .ok v =>
      if v.isArr then .ok j
      else
        match pySetItem ps reqKey (.arr [.str (pyStr v)]) with
        | .error () => .error ()
        | .ok ps2 => pySetItem j psKey ps2

/-- One iteration of the optional-list loop (services.py lines 235-239):
absent becomes `[]`, a present non-list becomes `[str(v)]`. -/
def coerceOptField (j : Json) (f : List Char) : Except Unit Json :=
  match pyGetItem j psKey with
  | .error () => .error ()
  | .ok ps =>
    match pyContains ps f with
    | .error () => .error ()
    | .ok false =>
      (match pySetItem ps f (.arr []) with
       | .error () => .error ()
       | .ok ps2 => pySetItem j psKey ps2)
    | .ok true =>
      match pyGetItem ps f with
      | .error () => .error ()
      | .ok v =>
        if v.isArr then .ok j
        else
          match pySetItem ps f (.arr [.str (pyStr v)]) with
          | .error () => .error ()
          | .ok ps2 => pySetItem j psKey ps2

/-- The post-parse body of `_parse_grok_response` (services.py lines
213-241), applied to the decoded JSON document. -/
def normalizeParsed (p : Json) : Except PyErr Json := do
  checkRequired p
  let j1 ← liftTE (fillFields p)
  let j2 := setDefaults j1
  let j3 ← liftTE (coerceRequirements j2)
  let j4 ← liftTE (coerceOptField j3 exKey)
  let j5 ← liftTE (coerceOptField j4 conKey)
  return j5

/-- `_parse_grok_response` (services.py lines 193-249): fence stripping,
`json.loads` (a decode failure is re-raised as
`ValueError("Invalid response format from AI service")`), then the
normalization body; every other exception is re-raised unchanged. -/
def parse_grok_response (g : List Char) : Except PyErr Json :=
  match jsonParse (stripMarkers g) with
  | none => .error .valueError
  | some p => normalizeParsed p

/-! ### Pydantic models (models.py) and their validation/coercion -/

/-- Pydantic v1 coercion into a `str` field: `str` passes through,
numbers and booleans are stringified, `None`/`list`/`dict` are
rejected. -/
def pyStrOf : Json → Option (List Char)
  | .str s => some s
  | .num n => some (toString n).toList
  | .bool b => some (if b then "True" else "False").toList
  | _ => none

/-- Python `int(s)` on a string: optional surrounding whitespace,
optional sign, a digit run, nothing else. -/
def pyIntOfStr (s : List Char) : Option Int :=
  let t := pyStrip s
  let (neg, t1) := match t with
    | '-' :: body => (true, body)
    | '+' :: body => (false, body)
    | _ => (false, t)
  if t1.isEmpty || t1.any (fun c => !c.isDigit) then none
  else some (if neg then -(digitsVal t1 : Int) else (digitsVal t1 : Int))

/-- Pydantic v1 coercion into an `int` field: `int` passes through,
`bool` is an `int` subclass, numeric strings are parsed, the rest is
rejected. -/
def pyIntOf : Json → Option Int
  | .num n => some n
  | .bool b => some (cond b 1 0)
  | .str s => pyIntOfStr s
  | _ => none

/-- Pydantic v1 coercion into a `List[str]` field. -/
def pyStrListOf : Json → Option (List (List Char))
  | .arr xs => xs.mapM pyStrOf
  | _ => none

/-- `PromptStructure` (models.py lines 50-91). -/
structure PromptStructure where
  context : List Char
  objective : List Char
  requirements : List (List Char)
  target_audience : List Char
  output_format : List Char
  tone_and_style : List Char
  examples : List (List Char)
  constraints : List (List Char)

/-- `PromptStructure(**entries)`: the five plain-`str` fields are
required; `requirements`/`examples`/`constraints` default to `[]` when
absent.  (`examples`/`constraints` are `Optional[...]`; an explicit JSON
`null` for them is not modelled — the normalizer always hands over
lists.)  Extra keys are ignored (pydantic v1 default). -/
def mkPromptStructure (pes : List (List Char × Json)) : Option PromptStructure := do
  let context ← (← objFind? pes contextKey) |> pyStrOf
  let objective ← (← objFind? pes objectiveKey) |> pyStrOf
  let target_audience ← (← objFind? pes taKey) |> pyStrOf
  let output_format ← (← objFind? pes ofKey) |> pyStrOf
  let tone_and_style ← (← objFind? pes tsKey) |> pyStrOf
  let requirements ← match objFind? pes reqKey with
    | none => some []
    | some v => pyStrListOf v
  let examples ← match objFind? pes exKey with
    | none => some []
    | some v => pyStrListOf v
  let constraints ← match objFind? pes conKey with
    | none => some []
    | some v => pyStrListOf v
  return { context, objective, requirements, target_audience,
           output_format, tone_and_style, examples, constraints }

/-- `EnhancedPromptResponse` (models.py lines 93-146).  The wall-clock
`created_at` timestamp is not modelled. -/
structure EnhancedPromptResponse where
  original_prompt : List Char
  enhanced_prompt : List Char
  prompt_structure : PromptStructure
  improvement_summary : List (List Char)
  estimated_improvement : Int
  enhancement_type : String
  word_count_original : Nat
  word_count_enhanced : Nat
  usage_tips : List (List Char)

/-! ### Template builder `_create_system_prompt` (services.py 103-144) -/

/-- `base_prompt` (services.py lines 106-126). -/
def basePrompt : String :=
  "You are an expert prompt engineer. Your task is to transform a basic prompt into a highly structured and effective prompt that will produce much better AI responses.\n\nYou must respond with a JSON object containing these exact fields:\n\x7b\n    \"enhanced_prompt\": \"The complete, enhanced prompt ready to use\",\n    \"prompt_structure\": \x7b\n        \"context\": \"Background context and setting\",\n        \"objective\": \"Clear statement of what needs to be accomplished\",\n        \"requirements\": [\"list\", \"of\", \"specific\", \"requirements\"],\n        \"target_audience\": \"Intended audience for the output\",\n        \"output_format\": \"Expected format and structure\",\n        \"tone_and_style\": \"Desired tone and writing style\",\n        \"examples\": [\"optional\", \"examples\"],\n        \"constraints\": [\"things\", \"to\", \"avoid\"]\n    \x7d,\n    \"improvement_summary\": [\"List of key improvements made\"],\n    \"estimated_improvement\": 85,\n    \"usage_tips\": [\"Tips for using this enhanced prompt effectively\"]\n\x7d\n\nIMPORTANT: Respond ONLY with valid JSON. Do not include any markdown formatting, code blocks, or explanatory text."

/-- `type_specific` (services.py lines 128-134), as the insertion-ordered
dict literal. -/
def typeSpecific : List (String × String) :=
  [("creative", "\n\nFocus on: storytelling elements, creative constraints, artistic vision, emotional tone, and imaginative requirements."),
   ("technical", "\n\nFocus on: technical specifications, code requirements, system constraints, performance criteria, and implementation details."),
   ("business", "\n\nFocus on: business objectives, target market, success metrics, brand voice, and commercial considerations."),
   ("educational", "\n\nFocus on: learning objectives, knowledge level, teaching methods, assessment criteria, and pedagogical approach."),
   ("general", "\n\nApply balanced enhancement suitable for any domain.")]

/-- `audience_specific` (services.py lines 136-142). -/
def audienceSpecific : List (String × String) :=
  [("beginner", "\n\nTailor for beginners: use simple language, provide more context, include step-by-step guidance."),
   ("expert", "\n\nTailor for experts: use technical terminology, assume deep knowledge, focus on advanced concepts."),
   ("business", "\n\nTailor for business professionals: focus on ROI, efficiency, scalability, and business impact."),
   ("student", "\n\nTailor for students: emphasize learning, provide educational context, include practice opportunities."),
   ("general", "\n\nMaintain accessibility for a general audience.")]

/-- Python `d.get(k, dflt)` on a string-valued dict literal. -/
def dictGetD (d : List (String × String)) (k : String) (dflt : String) : String :=
  ((d.find? fun p => p.1 = k).map Prod.snd).getD dflt

/-- `_create_system_prompt` (services.py line 144):
`base_prompt + type_specific.get(t, type_specific["general"]) +
audience_specific.get(a, audience_specific["general"])`.  (The direct
`["general"]` index cannot fail: `"general"` is in both dict literals;
the `""` fallback of `dictGetD` is unreachable.) -/
def create_system_prompt (enhancement_type target_audience : String) : String :=
  basePrompt
    ++ dictGetD typeSpecific enhancement_type (dictGetD typeSpecific "general" "")
    ++ dictGetD audienceSpecific target_audience (dictGetD audienceSpecific "general" "")

/-! ### Upstream client and orchestrator (services.py 51-101, 155-191) -/

/-- The observable outcome of one upstream HTTP call in
`_call_grok_api`: a 200 reply with the extracted
`choices[0].message.content`, a non-200 status, an `httpx` timeout, any
other transport exception, or a 200 reply whose body cannot be decoded
into that shape. -/
inductive UpstreamResult where
  | ok200 (content : List Char)
  | httpError (status : Nat)
  | timeout
  | transportError
  | badBody

/-- `_call_grok_api` (services.py lines 155-191): a 200 reply yields the
message content; every failure is (re-)raised as an exception
(`Exception(f"Grok API error: ...")`, `Exception("Request timeout...")`,
or the original exception). -/
def call_grok_api : UpstreamResult → Except PyErr (List Char)
  | .ok200 content => .ok content
  | _ => .error .upstreamError

/-- `enhance_prompt` (services.py lines 51-101).  The outcome of the
network call is the `upstream` argument; everything after it is the
code's own logic: parse the reply, compute whitespace word counts,
validate and build the `EnhancedPromptResponse`.  The
`except Exception ... raise` at lines 99-101 re-raises every failure to
the caller.  Pydantic validates all fields of one model together; the
sequential checks here fail exactly when pydantic's combined validation
would, with `.validationError` for the whole construction. -/
def enhance_prompt (original_prompt : List Char) (enhancement_type target_audience : String)
    (upstream : UpstreamResult) : Except PyErr EnhancedPromptResponse :=
  -- The built instruction text is sent upstream; its content does not
  -- influence anything observable after the call outcome.
  let _system_prompt := create_system_prompt enhancement_type target_audience
  match call_grok_api upstream with
  | .error e => .error e
  | .ok grokResponse =>
    match parse_grok_response grokResponse with
    | .error e => .error e
    | .ok enhancedData =>
      match enhancedData with
      | .obj es =>
        let word_count_original := (pyWords original_prompt).length
        match objFind? es epKey with
        | none => .error .typeError
        | some epVal =>
          match epVal with
          | .str enhanced =>
            let word_count_enhanced := (pyWords enhanced).length
            match objFind? es psKey with
            | none => .error .typeError
            | some psVal =>
              match psVal with
              | .obj pes =>
                match mkPromptStructure pes with
                | none => .error .validationError
                | some prompt_structure =>
                  match pyIntOf (objGetD es estKey (.num 75)),
                        pyStrListOf (objGetD es summaryKey (.arr [])),
                        pyStrListOf (objGetD es tipsKey (.arr [])) with
                  | some est, some improvement_summary, some usage_tips =>
                    if 1 ≤ est && est ≤ 100 then
                      .ok { original_prompt, enhanced_prompt := enhanced,
                            prompt_structure, improvement_summary,
                            estimated_improvement := est, enhancement_type,
                            word_count_original, word_count_enhanced, usage_tips }
                    else .error .validationError
                  | _, _, _ => .error .validationError
              -- `PromptStructure(**v)` with a non-mapping `v` raises.
              | _ => .error .typeError
          -- `.split()` on a non-`str` raises `AttributeError`.
          | _ => .error .attributeError
      -- Unreachable: `parse_grok_response` only succeeds with a `dict`.
      | _ => .error .typeError

/-! ### Dictionary lemmas -/

theorem objFind?_objInsert_self (es : List (List Char × Json)) (k : List Char) (v : Json) :
    objFind? (objInsert es k v) k = some v := by
  induction es with
  | nil => simp [objInsert, objFind?]
  | cons hd tl ih =>
    obtain ⟨k0, v0⟩ := hd
    by_cases h : k0 = k <;> simp [objInsert, objFind?, h, ih]

theorem objFind?_objInsert_ne (es : List (List Char × Json)) (k k' : List Char) (v : Json)
    (h : k' ≠ k) : objFind? (objInsert es k v) k' = objFind? es k' := by
  induction es with
  | nil => simp [objInsert, objFind?, Ne.symm h]
  | cons hd tl ih =>
    obtain ⟨k0, v0⟩ := hd
    by_cases h0 : k0 = k
    · subst h0
      simp [objInsert, objFind?, Ne.symm h]
    · simp [objInsert, objFind?, h0, ih]

theorem objInsert_self (es : List (List Char × Json)) (k : List Char) (v : Json)
    (h : objFind? es k = some v) : objInsert es k v = es := by
  induction es with
  | nil => simp [objFind?] at h
  | cons hd tl ih =>
    obtain ⟨k0, v0⟩ := hd
    by_cases h0 : k0 = k
    · simp [objFind?, h0] at h
      simp [objInsert, h0, h]
    · simp [objFind?, h0] at h
      simp [objInsert, h0, ih h]

theorem objInsert_objInsert (es : List (List Char × Json)) (k : List Char) (v v' : Json) :
    objInsert (objInsert es k v) k v' = objInsert es k v' := by
  induction es with
  | nil => simp [objInsert]
  | cons hd tl ih =>
    obtain ⟨k0, v0⟩ := hd
    by_cases h0 : k0 = k <;> simp [objInsert, h0, ih]

theorem objFind?_append (es es' : List (List Char × Json)) (k : List Char) :
    objFind? (es ++ es') k =
      match objFind? es k with
      | some v => some v
      | none => objFind? es' k := by
  induction es with
  | nil => simp [objFind?]
  | cons hd tl ih =>
    obtain ⟨k0, v0⟩ := hd
    by_cases h0 : k0 = k <;> simp [objFind?, h0, ih]

theorem objFind?_esSetdefault_self (es : List (List Char × Json)) (k : List Char) (v : Json) :
    objFind? (esSetdefault es k v) k = some ((objFind? es k).getD v) := by
  unfold esSetdefault
  cases h : objFind? es k with
  | some w => simp [h]
  | none => simp [h, objFind?_append, objFind?]

theorem objFind?_esSetdefault_ne (es : List (List Char × Json)) (k k' : List Char) (v : Json)
    (h : k' ≠ k) : objFind? (esSetdefault es k v) k' = objFind? es k' := by
  unfold esSetdefault
  cases h0 : objFind? es k with
  | some w => simp
  | none =>
    simp only [h0, Option.isSome_none, Bool.false_eq_true, if_false, objFind?_append]
    cases h1 : objFind? es k' with
    | some w => simp
    | none => simp [objFind?, Ne.symm h]

/-! ### Characterizing the placeholder loop -/

/-- The effect of one placeholder-loop iteration on the
`prompt_structure` entries when that value is a `dict`. -/
def fillPS (pes : List (List Char × Json)) (f : List Char) : List (List Char × Json) :=
  if (objFind? pes f).isSome then pes else objInsert pes f (.str (notSpecified f))

theorem objFind?_fillPS_self (pes : List (List Char × Json)) (f : List Char) :
    objFind? (fillPS pes f) f = some ((objFind? pes f).getD (.str (notSpecified f))) := by
  unfold fillPS
  cases h : objFind? pes f with
  | some w => simp [h]
  | none => simp [h, objFind?_objInsert_self]

theorem objFind?_fillPS_ne (pes : List (List Char × Json)) (f k : List Char) (h : k ≠ f) :
    objFind? (fillPS pes f) k = objFind? pes k := by
  unfold fillPS
  cases h0 : objFind? pes f with
  | some w => simp
  | none => simp [objFind?_objInsert_ne _ _ _ _ h]

theorem fillStructureField_obj (es pes : List (List Char × Json)) (f : List Char)
    (h : objFind? es psKey = some (.obj pes)) :
    fillStructureField (.obj es) f = .ok (.obj (objInsert es psKey (.obj (fillPS pes f)))) := by
  unfold fillStructureField pyGetItem pyContains pySetItem fillPS
  cases h0 : objFind? pes f with
  | some w => simp [h, h0, objInsert_self es psKey (.obj pes) h]
  | none => simp [h, h0]

theorem foldlM_fillStructureField (fs : List (List Char)) (es pes : List (List Char × Json))
    (h : objFind? es psKey = some (.obj pes)) :
    List.foldlM fillStructureField (Json.obj es) fs =
      .ok (.obj (objInsert es psKey (.obj (fs.foldl fillPS pes)))) := by
  induction fs generalizing es pes with
  | nil =>
    rw [List.foldlM_nil, List.foldl_nil, objInsert_self es psKey (.obj pes) h]
    rfl
  | cons f fs ih =>
    have step := ih (objInsert es psKey (.obj (fillPS pes f))) (fillPS pes f)
      (objFind?_objInsert_self es psKey (.obj (fillPS pes f)))
    rw [List.foldlM_cons, fillStructureField_obj es pes f h, List.foldl_cons]
    show List.foldlM fillStructureField (Json.obj (objInsert es psKey (Json.obj (fillPS pes f)))) fs = _
    rw [step, objInsert_objInsert]

theorem foldl_fillPS_not_mem (fs : List (List Char)) (pes : List (List Char × Json))
    (k : List Char) (h : k ∉ fs) :
    objFind? (fs.foldl fillPS pes) k = objFind? pes k := by
  induction fs generalizing pes with
  | nil => rfl
  | cons f fs ih =>
    simp only [not_or, List.mem_cons] at h
    simp only [List.foldl_cons]
    rw [ih _ h.2, objFind?_fillPS_ne _ _ _ h.1]

theorem foldl_fillPS_mem (fs : List (List Char)) (pes : List (List Char × Json))
    (k : List Char) (h : k ∈ fs) :
    objFind? (fs.foldl fillPS pes) k =
      some ((objFind? pes k).getD (.str (notSpecified k))) := by
  induction fs generalizing pes with
  | nil => simp at h
  | cons f fs ih =>
    simp only [List.foldl_cons]
    by_cases hm : k ∈ fs
    · rw [ih _ hm]
      by_cases hf : k = f
      · subst hf
        rw [objFind?_fillPS_self]
        simp
      · rw [objFind?_fillPS_ne _ _ _ hf]
    · have hf : k = f := by
        rcases List.mem_cons.mp h with h1 | h1
        · exact h1
        · exact absurd h1 hm
      subst hf
      rw [foldl_fillPS_not_mem _ _ _ hm, objFind?_fillPS_self]

/-! ### Characterizing the list coercions -/

/-- Net effect of the requirements coercion on the stored value. -/
def reqCoerceVal (v : Json) : Json :=
  match v with
  | .arr xs => .arr xs
  | v => .arr [.str (pyStr v)]

/-- Net effect of the examples/constraints coercion on an optional
stored value. -/
def optCoerceVal : Option Json → Json
  | none => .arr []
  | some (.arr xs) => .arr xs
  | some v => .arr [.str (pyStr v)]

theorem coerceRequirements_obj (es pes : List (List Char × Json)) (v : Json)
    (h : objFind? es psKey = some (.obj pes)) (hreq : objFind? pes reqKey = some v) :
    coerceRequirements (.obj es) =
      .ok (.obj (objInsert es psKey (.obj (objInsert pes reqKey (reqCoerceVal v))))) := by
  unfold coerceRequirements pyGetItem pySetItem
  cases v with
  | arr xs =>
    simp [h, hreq, Json.isArr, reqCoerceVal, objInsert_self pes reqKey (.arr xs) hreq,
      objInsert_self es psKey (.obj pes) h]
  | str s => simp [h, hreq, Json.isArr, reqCoerceVal]
  | num n => simp [h, hreq, Json.isArr, reqCoerceVal]
  | bool b => simp [h, hreq, Json.isArr, reqCoerceVal]
  | null => simp [h, hreq, Json.isArr, reqCoerceVal]
  | obj es2 => simp [h, hreq, Json.isArr, reqCoerceVal]

theorem coerceOptField_obj (es pes : List (List Char × Json)) (f : List Char)
    (h : objFind? es psKey = some (.obj pes)) :
    coerceOptField (.obj es) f =
      .ok (.obj (objInsert es psKey (.obj (objInsert pes f (optCoerceVal (objFind? pes f)))))) := by
  unfold coerceOptField pyGetItem pyContains pySetItem
  cases hv : objFind? pes f with
  | none => simp [h, hv, optCoerceVal]
  | some v =>
    cases v with
    | arr xs =>
      simp [h, hv, Json.isArr, optCoerceVal, objInsert_self pes f (.arr xs) hv,
        objInsert_self es psKey (.obj pes) h]
    | str s => simp [h, hv, Json.isArr, optCoerceVal]
    | num n => simp [h, hv, Json.isArr, optCoerceVal]
    | bool b => simp [h, hv, Json.isArr, optCoerceVal]
    | null => simp [h, hv, Json.isArr, optCoerceVal]
    | obj es2 => simp [h, hv, Json.isArr, optCoerceVal]

theorem exceptBind_ok {α β ε : Type} (g : α → Except ε β) (x : α) :
    (Except.ok x >>= g) = g x :=
  rfl

theorem liftTE_ok {α : Type} (a : α) : liftTE (.ok a) = .ok a := rfl

theorem liftTE_error {α : Type} : liftTE (α := α) (.error ()) = .error .typeError := rfl

theorem checkRequired_obj (es : List (List Char × Json))
    (hep : (objFind? es epKey).isSome) (hps : (objFind? es psKey).isSome) :
    checkRequired (.obj es) = .ok () := by
  unfold checkRequired pyContains
  simp [hep, hps]

/-- Master characterization of the normalization body on a decoded
`dict` whose `"prompt_structure"` value is itself a `dict`. -/
theorem normalizeParsed_obj (es pes : List (List Char × Json))
    (hep : (objFind? es epKey).isSome)
    (hps : objFind? es psKey = some (.obj pes)) :
    ∃ es' pes',
      normalizeParsed (.obj es) = .ok (.obj es') ∧
      objFind? es' psKey = some (.obj pes') ∧
      objFind? es' epKey = objFind? es epKey ∧
      objFind? es' summaryKey = some ((objFind? es summaryKey).getD defaultSummary) ∧
      objFind? es' estKey = some ((objFind? es estKey).getD (.num 75)) ∧
      objFind? es' tipsKey = some ((objFind? es tipsKey).getD defaultTips) ∧
      (∀ f ∈ structureFields, f ≠ reqKey →
        objFind? pes' f = some ((objFind? pes f).getD (.str (notSpecified f)))) ∧
      objFind? pes' reqKey =
        some (reqCoerceVal ((objFind? pes reqKey).getD (.str (notSpecified reqKey)))) ∧
      objFind? pes' exKey = some (optCoerceVal (objFind? pes exKey)) ∧
      objFind? pes' conKey = some (optCoerceVal (objFind? pes conKey)) := by
  -- Phase 1: placeholder loop.
  have hfill : fillFields (.obj es) =
      .ok (.obj (objInsert es psKey (.obj (structureFields.foldl fillPS pes)))) :=
    foldlM_fillStructureField structureFields es pes hps
  set pesF := structureFields.foldl fillPS pes with hpesF
  set es1 := objInsert es psKey (.obj pesF) with hes1
  have hps1 : objFind? es1 psKey = some (.obj pesF) := objFind?_objInsert_self es psKey _
  -- Phase 2: the three setdefault calls.
  set es2 := esSetdefault (esSetdefault (esSetdefault es1 summaryKey defaultSummary)
      estKey (.num 75)) tipsKey defaultTips with hes2
  have hsd : setDefaults (.obj es1) = .obj es2 := rfl
  have hps2 : objFind? es2 psKey = some (.obj pesF) := by
    rw [hes2, objFind?_esSetdefault_ne _ _ _ _ (by decide),
      objFind?_esSetdefault_ne _ _ _ _ (by decide),
      objFind?_esSetdefault_ne _ _ _ _ (by decide), hps1]
  -- Phase 3: requirements coercion.
  have hreqF : objFind? pesF reqKey =
      some ((objFind? pes reqKey).getD (.str (notSpecified reqKey))) :=
    foldl_fillPS_mem structureFields pes reqKey (by decide)
  set vR := (objFind? pes reqKey).getD (.str (notSpecified reqKey)) with hvR
  set pes3 := objInsert pesF reqKey (reqCoerceVal vR) with hpes3
  have hcoeR : coerceRequirements (.obj es2) =
      .ok (.obj (objInsert es2 psKey (.obj pes3))) :=
    coerceRequirements_obj es2 pesF vR hps2 hreqF
  set es3 := objInsert es2 psKey (.obj pes3) with hes3
  have hps3 : objFind? es3 psKey = some (.obj pes3) := objFind?_objInsert_self es2 psKey _
  -- Phase 4: examples.
  set pes4 := objInsert pes3 exKey (optCoerceVal (objFind? pes3 exKey)) with hpes4
  have hcoeE : coerceOptField (.obj es3) exKey =
      .ok (.obj (objInsert es3 psKey (.obj pes4))) :=
    coerceOptField_obj es3 pes3 exKey hps3
  set es4 := objInsert es3 psKey (.obj pes4) with hes4
  have hps4 : objFind? es4 psKey = some (.obj pes4) := objFind?_objInsert_self es3 psKey _
  -- Phase 5: constraints.
  set pes5 := objInsert pes4 conKey (optCoerceVal (objFind? pes4 conKey)) with hpes5
  have hcoeC : coerceOptField (.obj es4) conKey =
      .ok (.obj (objInsert es4 psKey (.obj pes5))) :=
    coerceOptField_obj es4 pes4 conKey hps4
  set es5 := objInsert es4 psKey (.obj pes5) with hes5
  -- Assemble the run.
  have hcheck : checkRequired (.obj es) = .ok () :=
    checkRequired_obj es hep (by rw [hps]; rfl)
  have hrun : normalizeParsed (.obj es) = .ok (.obj es5) := by
    simp only [normalizeParsed, hcheck, exceptBind_ok, liftTE_ok, hfill, hsd, hcoeR,
      hcoeE, hcoeC]
    rfl
  -- Lookup facts on the intermediate structures.
  have hexF : objFind? pesF exKey = objFind? pes exKey :=
    foldl_fillPS_not_mem structureFields pes exKey (by decide)
  have hconF : objFind? pesF conKey = objFind? pes conKey :=
    foldl_fillPS_not_mem structureFields pes conKey (by decide)
  have hex3 : objFind? pes3 exKey = objFind? pes exKey := by
    rw [hpes3, objFind?_objInsert_ne _ _ _ _ (by decide), hexF]
  have hcon4 : objFind? pes4 conKey = objFind? pes conKey := by
    rw [hpes4, objFind?_objInsert_ne _ _ _ _ (by decide), hpes3,
      objFind?_objInsert_ne _ _ _ _ (by decide), hconF]
  refine ⟨es5, pes5, hrun, objFind?_objInsert_self es4 psKey _,
    ?epk, ?sumk, ?estk, ?tipk, ?fldk, ?reqk, ?exk, ?conk⟩
  · -- epKey untouched by every phase.
    rw [hes5, objFind?_objInsert_ne _ _ _ _ (by decide), hes4,
      objFind?_objInsert_ne _ _ _ _ (by decide), hes3,
      objFind?_objInsert_ne _ _ _ _ (by decide), hes2,
      objFind?_esSetdefault_ne _ _ _ _ (by decide),
      objFind?_esSetdefault_ne _ _ _ _ (by decide),
      objFind?_esSetdefault_ne _ _ _ _ (by decide), hes1,
      objFind?_objInsert_ne _ _ _ _ (by decide)]
  · -- improvement_summary: set by the first setdefault, then untouched.
    rw [hes5, objFind?_objInsert_ne _ _ _ _ (by decide), hes4,
      objFind?_objInsert_ne _ _ _ _ (by decide), hes3,
      objFind?_objInsert_ne _ _ _ _ (by decide), hes2,
      objFind?_esSetdefault_ne _ _ _ _ (by decide),
      objFind?_esSetdefault_ne _ _ _ _ (by decide),
      objFind?_esSetdefault_self, hes1,
      objFind?_objInsert_ne _ _ _ _ (by decide)]
  · -- estimated_improvement.
    rw [hes5, objFind?_objInsert_ne _ _ _ _ (by decide), hes4,
      objFind?_objInsert_ne _ _ _ _ (by decide), hes3,
      objFind?_objInsert_ne _ _ _ _ (by decide), hes2,
      objFind?_esSetdefault_ne _ _ _ _ (by decide),
      objFind?_esSetdefault_self,
      objFind?_esSetdefault_ne _ _ _ _ (by decide), hes1,
      objFind?_objInsert_ne _ _ _ _ (by decide)]
  · -- usage_tips.
    rw [hes5, objFind?_objInsert_ne _ _ _ _ (by decide), hes4,
      objFind?_objInsert_ne _ _ _ _ (by decide), hes3,
      objFind?_objInsert_ne _ _ _ _ (by decide), hes2,
      objFind?_esSetdefault_self,
      objFind?_esSetdefault_ne _ _ _ _ (by decide),
      objFind?_esSetdefault_ne _ _ _ _ (by decide), hes1,
      objFind?_objInsert_ne _ _ _ _ (by decide)]
  · -- The five non-requirements structure fields.
    intro f hf hne
    have hmem : objFind? pesF f = some ((objFind? pes f).getD (.str (notSpecified f))) :=
      foldl_fillPS_mem structureFields pes f hf
    have hor : f = contextKey ∨ f = objectiveKey ∨ f = reqKey ∨ f = taKey ∨
        f = ofKey ∨ f = tsKey := by
      simpa [structureFields] using hf
    have hfex : f ≠ exKey := by
      rcases hor with hf | hf | hf | hf | hf | hf <;> subst hf <;> decide
    have hfcon : f ≠ conKey := by
      rcases hor with hf | hf | hf | hf | hf | hf <;> subst hf <;> decide
    rw [hpes5, objFind?_objInsert_ne _ _ _ _ hfcon, hpes4,
      objFind?_objInsert_ne _ _ _ _ hfex, hpes3,
      objFind?_objInsert_ne _ _ _ _ hne, hmem]
  · -- requirements.
    rw [hpes5, objFind?_objInsert_ne _ _ _ _ (by decide), hpes4,
      objFind?_objInsert_ne _ _ _ _ (by decide), hpes3, objFind?_objInsert_self]
  · -- examples.
    rw [hpes5, objFind?_objInsert_ne _ _ _ _ (by decide), hpes4,
      objFind?_objInsert_self, hex3]
  · -- constraints.
    rw [hpes5, objFind?_objInsert_self, hcon4]

theorem exceptBind_error {α β ε : Type} (g : α → Except ε β) (e : ε) :
    (Except.error e >>= g) = .error e :=
  rfl

/-- On a non-`dict` `prompt_structure` value, each placeholder-loop step
either raises a `TypeError` or leaves the document unchanged. -/
theorem foldlM_fill_nonObjPS (fs : List (List Char)) (es : List (List Char × Json))
    (ps : Json) (h : objFind? es psKey = some ps) (hno : ps.isObj = false) :
    List.foldlM fillStructureField (Json.obj es) fs = .error () ∨
    List.foldlM fillStructureField (Json.obj es) fs = .ok (.obj es) := by
  induction fs with
  | nil => right; rfl
  | cons f fs ih =>
    rw [List.foldlM_cons]
    cases ps with
    | obj pes => simp [Json.isObj] at hno
    | str s =>
      cases hc : hasSubstring s f with
      | true =>
        have hstep : fillStructureField (.obj es) f = .ok (.obj es) := by
          unfold fillStructureField pyGetItem pyContains
          simp [h, hc]
        rw [hstep, exceptBind_ok]
        exact ih
      | false =>
        have hstep : fillStructureField (.obj es) f = .error () := by
          unfold fillStructureField pyGetItem pyContains pySetItem
          simp [h, hc]
        rw [hstep, exceptBind_error]
        left; rfl
    | arr xs =>
      cases hc : xs.any fun e => match e with | .str s => s = f | _ => false with
      | true =>
        have hstep : fillStructureField (.obj es) f = .ok (.obj es) := by
          unfold fillStructureField pyGetItem pyContains
          simp [h, hc]
        rw [hstep, exceptBind_ok]
        exact ih
      | false =>
        have hstep : fillStructureField (.obj es) f = .error () := by
          unfold fillStructureField pyGetItem pyContains pySetItem
          simp [h, hc]
        rw [hstep, exceptBind_error]
        left; rfl
    | num n =>
      have hstep : fillStructureField (.obj es) f = .error () := by
        unfold fillStructureField pyGetItem pyContains
        simp [h]
      rw [hstep, exceptBind_error]
      left; rfl
    | bool b =>
      have hstep : fillStructureField (.obj es) f = .error () := by
        unfold fillStructureField pyGetItem pyContains
        simp [h]
      rw [hstep, exceptBind_error]
      left; rfl
    | null =>
      have hstep : fillStructureField (.obj es) f = .error () := by
        unfold fillStructureField pyGetItem pyContains
        simp [h]
      rw [hstep, exceptBind_error]
      left; rfl

/-- A decoded `dict` with both required fields whose
`"prompt_structure"` value is not a `dict` always ends in a
`TypeError`: either a placeholder store fails, or (when every membership
probe happens to succeed) the requirements coercion indexes the
non-`dict` value. -/
theorem normalizeParsed_nonObjPS (es : List (List Char × Json)) (ps : Json)
    (hep : (objFind? es epKey).isSome) (hps : objFind? es psKey = some ps)
    (hno : ps.isObj = false) :
    normalizeParsed (.obj es) = .error .typeError := by
  have hcheck : checkRequired (.obj es) = .ok () :=
    checkRequired_obj es hep (by rw [hps]; rfl)
  rcases foldlM_fill_nonObjPS structureFields es ps hps hno with herr | hok
  · have hfill : fillFields (.obj es) = .error () := herr
    simp only [normalizeParsed, hcheck, exceptBind_ok, hfill, liftTE_error, exceptBind_error]
  · have hfill : fillFields (.obj es) = .ok (.obj es) := hok
    set es2 := esSetdefault (esSetdefault (esSetdefault es summaryKey defaultSummary)
        estKey (.num 75)) tipsKey defaultTips with hes2
    have hsd : setDefaults (.obj es) = .obj es2 := rfl
    have hps2 : objFind? es2 psKey = some ps := by
      rw [hes2, objFind?_esSetdefault_ne _ _ _ _ (by decide),
        objFind?_esSetdefault_ne _ _ _ _ (by decide),
        objFind?_esSetdefault_ne _ _ _ _ (by decide), hps]
    have hcoe : coerceRequirements (.obj es2) = .error () := by
      unfold coerceRequirements pyGetItem
      cases ps with
      | obj pes => simp [Json.isObj] at hno
      | str s => simp [hps2]
      | arr xs => simp [hps2]
      | num n => simp [hps2]
      | bool b => simp [hps2]
      | null => simp [hps2]
    simp only [normalizeParsed, hcheck, exceptBind_ok, hfill, liftTE_ok, hsd, hcoe,
      liftTE_error, exceptBind_error]

/-- A decoded document that is not a `dict` never normalizes
successfully. -/
theorem normalizeParsed_nonObj (p : Json) (hno : p.isObj = false) (r : Json) :
    normalizeParsed p ≠ .ok r := by
  cases p with
  | obj es => simp [Json.isObj] at hno
  | num n => simp [normalizeParsed, checkRequired, pyContains, exceptBind_error]
  | bool b => simp [normalizeParsed, checkRequired, pyContains, exceptBind_error]
  | null => simp [normalizeParsed, checkRequired, pyContains, exceptBind_error]
  | str s =>
    cases h1 : hasSubstring s epKey with
    | false =>
      have hcr : checkRequired (.str s) = .error .valueError := by
        unfold checkRequired pyContains
        simp [h1]
      simp [normalizeParsed, hcr, exceptBind_error]
    | true =>
      cases h2 : hasSubstring s psKey with
      | false =>
        have hcr : checkRequired (.str s) = .error .valueError := by
          unfold checkRequired pyContains
          simp [h1, h2]
        simp [normalizeParsed, hcr, exceptBind_error]
      | true =>
        have hcr : checkRequired (.str s) = .ok () := by
          unfold checkRequired pyContains
          simp [h1, h2]
        have hfill : fillFields (.str s) = .error () := by
          unfold fillFields structureFields
          rw [List.foldlM_cons]
          have hstep : fillStructureField (.str s) contextKey = .error () := by
            unfold fillStructureField pyGetItem
            rfl
          rw [hstep, exceptBind_error]
        simp [normalizeParsed, hcr, hfill, liftTE_error, exceptBind_ok, exceptBind_error]
  | arr xs =>
    cases h1 : xs.any fun e => match e with | .str s => s = epKey | _ => false with
    | false =>
      have hcr : checkRequired (.arr xs) = .error .valueError := by
        unfold checkRequired pyContains
        simp [h1]
      simp [normalizeParsed, hcr, exceptBind_error]
    | true =>
      cases h2 : xs.any fun e => match e with | .str s => s = psKey | _ => false with
      | false =>
        have hcr : checkRequired (.arr xs) = .error .valueError := by
          unfold checkRequired pyContains
          simp [h1, h2]
        simp [normalizeParsed, hcr, exceptBind_error]
      | true =>
        have hcr : checkRequired (.arr xs) = .ok () := by
          unfold checkRequired pyContains
          simp [h1, h2]
        have hfill : fillFields (.arr xs) = .error () := by
          unfold fillFields structureFields
          rw [List.foldlM_cons]
          have hstep : fillStructureField (.arr xs) contextKey = .error () := by
            unfold fillStructureField pyGetItem
            rfl
          rw [hstep, exceptBind_error]
        simp [normalizeParsed, hcr, hfill, liftTE_error, exceptBind_ok, exceptBind_error]

/-- Shape of every successful normalization: the document was a `dict`
holding both required fields, with a `dict` `prompt_structure`. -/
theorem normalizeParsed_ok_shape (p : Json) (r : Json) (h : normalizeParsed p = .ok r) :
    ∃ es pes, p = .obj es ∧ (objFind? es epKey).isSome ∧
      objFind? es psKey = some (.obj pes) := by
  cases p with
  | str s => exact absurd h (normalizeParsed_nonObj _ (by rfl) r)
  | num n => exact absurd h (normalizeParsed_nonObj _ (by rfl) r)
  | bool b => exact absurd h (normalizeParsed_nonObj _ (by rfl) r)
  | null => exact absurd h (normalizeParsed_nonObj _ (by rfl) r)
  | arr xs => exact absurd h (normalizeParsed_nonObj _ (by rfl) r)
  | obj es =>
    refine ⟨es, ?_⟩
    cases hep : (objFind? es epKey).isSome with
    | false =>
      have hcr : checkRequired (.obj es) = .error .valueError := by
        unfold checkRequired pyContains
        simp [hep]
      simp [normalizeParsed, hcr, exceptBind_error] at h
    | true =>
      cases hps : objFind? es psKey with
      | none =>
        have hcr : checkRequired (.obj es) = .error .valueError := by
          unfold checkRequired pyContains
          simp [hep, hps]
        simp [normalizeParsed, hcr, exceptBind_error] at h
      | some ps =>
        cases hpo : ps.isObj with
        | false =>
          rw [normalizeParsed_nonObjPS es ps hep hps hpo] at h
          simp at h
        | true =>
          cases ps with
          | obj pes => exact ⟨pes, rfl, by simp [hep], by simp [hps]⟩
          | str s => simp [Json.isObj] at hpo
          | num n => simp [Json.isObj] at hpo
          | bool b => simp [Json.isObj] at hpo
          | null => simp [Json.isObj] at hpo
          | arr xs => simp [Json.isObj] at hpo

/-- Total accessor used in theorem statements: `dict` lookup with `None`
for absence or non-`dict`s. -/
def jGet (j : Json) (k : List Char) : Json :=
  match j with
  | .obj es => (objFind? es k).getD .null
  | _ => .null

theorem reqCoerceVal_isArr (v : Json) : (reqCoerceVal v).isArr = true := by
  cases v <;> rfl

theorem optCoerceVal_isArr (o : Option Json) : (optCoerceVal o).isArr = true := by
  rcases o with _ | v
  · rfl
  · cases v <;> rfl

/-- After the required-field check passes, no later phase of the
normalization body raises a `ValueError`: every later failure is a
`TypeError`. -/
theorem normalizeParsed_post_no_valueError (p : Json) (hcr : checkRequired p = .ok ()) :
    normalizeParsed p ≠ .error .valueError := by
  cases hf : fillFields p with
  | error u =>
    cases u
    simp [normalizeParsed, hcr, hf, liftTE_error, exceptBind_ok, exceptBind_error]
  | ok j1 =>
    cases hc1 : coerceRequirements (setDefaults j1) with
    | error u =>
      cases u
      simp [normalizeParsed, hcr, hf, hc1, liftTE_ok, liftTE_error, exceptBind_ok,
        exceptBind_error]
    | ok j3 =>
      cases hc2 : coerceOptField j3 exKey with
      | error u =>
        cases u
        simp [normalizeParsed, hcr, hf, hc1, hc2, liftTE_ok, liftTE_error, exceptBind_ok,
          exceptBind_error]
      | ok j4 =>
        cases hc3 : coerceOptField j4 conKey with
        | error u =>
          cases u
          simp [normalizeParsed, hcr, hf, hc1, hc2, hc3, liftTE_ok, liftTE_error,
            exceptBind_ok, exceptBind_error]
        | ok j5 =>
          simp [normalizeParsed, hcr, hf, hc1, hc2, hc3, liftTE_ok, exceptBind_ok]

theorem checkRequired_missing_ep (p : Json) (h : pyContains p epKey = .ok false) :
    checkRequired p = .error .valueError := by
  unfold checkRequired
  rw [h]

theorem checkRequired_missing_ps (p : Json) (h1 : pyContains p epKey = .ok true)
    (h2 : pyContains p psKey = .ok false) : checkRequired p = .error .valueError := by
  unfold checkRequired
  rw [h1, h2]

/-- C2 (counterexample): the claim "for any parsed object containing
both required fields the normalizer succeeds without raising" fails on
`{"enhanced_prompt": "x", "prompt_structure": []}`: both top-level
fields are present, yet `_parse_grok_response` raises (a `TypeError`,
because the list value of `"prompt_structure"` does not support
`str`-keyed assignment). -/
theorem claim_C2_counterexample :
    jsonParse (stripMarkers "\x7b\"enhanced_prompt\": \"x\", \"prompt_structure\": []\x7d".toList) =
      some (.obj [(epKey, .str ['x']), (psKey, .arr [])]) ∧
    parse_grok_response "\x7b\"enhanced_prompt\": \"x\", \"prompt_structure\": []\x7d".toList =
      .error .typeError :=
  ⟨rfl, rfl⟩

/-- C2 (amended): `_parse_grok_response` fails with a ParseError
(`ValueError`) exactly when the cleaned text does not decode, or the
decoded document fails a required-field membership test; and for a
decoded mapping holding both required fields whose `"prompt_structure"`
value is itself a mapping, it succeeds without raising.  (A decoded
document holding both fields with a non-mapping `"prompt_structure"`
raises a `TypeError` instead — see C10.) -/
theorem claim_C2_amended :
    (∀ g : List Char, jsonParse (stripMarkers g) = none →
      parse_grok_response g = .error .valueError) ∧
    (∀ (g : List Char) (p : Json), jsonParse (stripMarkers g) = some p →
      (pyContains p epKey = .ok false ∨
        (pyContains p epKey = .ok true ∧ pyContains p psKey = .ok false)) →
      parse_grok_response g = .error .valueError) ∧
    (∀ (g : List Char) (p : Json), jsonParse (stripMarkers g) = some p →
      parse_grok_response g = .error .valueError →
      (pyContains p epKey = .ok false ∨
        (pyContains p epKey = .ok true ∧ pyContains p psKey = .ok false))) ∧
    (∀ (g : List Char) (es pes : List (List Char × Json)),
      jsonParse (stripMarkers g) = some (.obj es) →
      (objFind? es epKey).isSome → objFind? es psKey = some (.obj pes) →
      (parse_grok_response g).isOk = true) := by
  refine ⟨?pa, ?pb, ?pc, ?pd⟩
  · intro g hg
    simp [parse_grok_response, hg]
  · intro g p hg hmiss
    have hcr : checkRequired p = .error .valueError := by
      rcases hmiss with h | ⟨h1, h2⟩
      · exact checkRequired_missing_ep p h
      · exact checkRequired_missing_ps p h1 h2
    simp [parse_grok_response, hg, normalizeParsed, hcr, exceptBind_error]
  · intro g p hg herr
    have hnp : normalizeParsed p = .error .valueError := by
      simpa [parse_grok_response, hg] using herr
    cases hep : pyContains p epKey with
    | error u =>
      cases u
      have hcr : checkRequired p = .error .typeError := by
        unfold checkRequired
        rw [hep]
      rw [show normalizeParsed p = .error .typeError by
        simp [normalizeParsed, hcr, exceptBind_error]] at hnp
      exact absurd hnp (by simp)
    | ok b =>
      cases b with
      | false => exact Or.inl rfl
      | true =>
        cases hps : pyContains p psKey with
        | error u =>
          cases u
          have hcr : checkRequired p = .error .typeError := by
            unfold checkRequired
            rw [hep, hps]
          rw [show normalizeParsed p = .error .typeError by
            simp [normalizeParsed, hcr, exceptBind_error]] at hnp
          exact absurd hnp (by simp)
        | ok b2 =>
          cases b2 with
          | false => exact Or.inr ⟨rfl, rfl⟩
          | true =>
            have hcr : checkRequired p = .ok () := by
              unfold checkRequired
              rw [hep, hps]
            exact absurd hnp (normalizeParsed_post_no_valueError p hcr)
  · intro g es pes hg hep hps
    obtain ⟨es', pes', hrun, -⟩ := normalizeParsed_obj es pes hep hps
    simp [parse_grok_response, hg, hrun, Except.isOk, Except.toBool]

/-- C2 (witness): the amended theorem applied to the unparsable reply
`"not json at all"`. -/
theorem claim_C2_witness :
    parse_grok_response "not json at all".toList = .error .valueError :=
  claim_C2_amended.1 "not json at all".toList rfl

/-- C10: when the decoded reply is a mapping holding both required
top-level fields but its `"prompt_structure"` value is not a mapping,
`_parse_grok_response` raises (a `TypeError`) rather than synthesizing
placeholders or returning a normalized value. -/
theorem claim_C10 (g : List Char) (es : List (List Char × Json)) (ps : Json)
    (h1 : jsonParse (stripMarkers g) = some (.obj es))
    (h2 : (objFind? es epKey).isSome)
    (h3 : objFind? es psKey = some ps)
    (h4 : ps.isObj = false) :
    parse_grok_response g = .error .typeError := by
  simp [parse_grok_response, h1, normalizeParsed_nonObjPS es ps h2 h3 h4]

/-- C10 (witness): applied to
`{"enhanced_prompt": "x", "prompt_structure": 5}`. -/
theorem claim_C10_witness :
    parse_grok_response "\x7b\"enhanced_prompt\": \"x\", \"prompt_structure\": 5\x7d".toList =
      .error .typeError :=
  claim_C10 _ [(epKey, .str ['x']), (psKey, .num 5)] (.num 5) rfl rfl rfl rfl

/-- C4: for a decoded mapping holding both required fields (with a
mapping `"prompt_structure"` value, the shape the placeholder loop can
process), the loop of services.py lines 219-223 stores the placeholder
string `"Not specified - <field>"` under every one of the six required
structure fields that is absent, keeps every present one unchanged, and
the normalizer as a whole succeeds rather than failing over a missing
field. -/
theorem claim_C4 (es pes : List (List Char × Json))
    (hep : (objFind? es epKey).isSome)
    (hps : objFind? es psKey = some (.obj pes)) :
    (∀ f ∈ structureFields, objFind? pes f = none →
      objFind? (structureFields.foldl fillPS pes) f = some (.str (notSpecified f))) ∧
    (∀ f ∈ structureFields, ∀ v, objFind? pes f = some v →
      objFind? (structureFields.foldl fillPS pes) f = some v) ∧
    fillFields (.obj es) =
      .ok (.obj (objInsert es psKey (.obj (structureFields.foldl fillPS pes)))) ∧
    (normalizeParsed (.obj es)).isOk = true := by
  refine ⟨?_, ?_, foldlM_fillStructureField structureFields es pes hps, ?_⟩
  · intro f hf hnone
    rw [foldl_fillPS_mem structureFields pes f hf, hnone]
    rfl
  · intro f hf v hv
    rw [foldl_fillPS_mem structureFields pes f hf, hv]
    rfl
  · obtain ⟨es', pes', hrun, -⟩ := normalizeParsed_obj es pes hep hps
    simp [hrun, Except.isOk, Except.toBool]

/-- C4 (witness): on `{"enhanced_prompt": "x", "prompt_structure": {}}`
the loop fills `context` with its placeholder and the normalizer
succeeds. -/
theorem claim_C4_witness :
    objFind? (structureFields.foldl fillPS []) contextKey =
      some (.str (notSpecified contextKey)) ∧
    (normalizeParsed (.obj [(epKey, .str ['x']), (psKey, .obj [])])).isOk = true :=
  ⟨(claim_C4 [(epKey, .str ['x']), (psKey, .obj [])] [] rfl rfl).1 contextKey (by decide) rfl,
   (claim_C4 [(epKey, .str ['x']), (psKey, .obj [])] [] rfl rfl).2.2.2⟩

/-- C5: in every successful normalizer output, `requirements` is a list
(a non-list decoded value, or the placeholder synthesized for an absent
one, is wrapped as the one-element list of its `str` form), and
`examples`/`constraints` are lists (absent becomes `[]`, a present
non-list becomes the one-element list of its `str` form) — `reqCoerceVal`
and `optCoerceVal` state those replacement rules. -/
theorem claim_C5 (g : List Char) (r : Json) (es pes : List (List Char × Json))
    (h : parse_grok_response g = .ok r)
    (h1 : jsonParse (stripMarkers g) = some (.obj es))
    (hps : objFind? es psKey = some (.obj pes)) :
    jGet (jGet r psKey) reqKey =
      reqCoerceVal ((objFind? pes reqKey).getD (.str (notSpecified reqKey))) ∧
    (jGet (jGet r psKey) reqKey).isArr = true ∧
    jGet (jGet r psKey) exKey = optCoerceVal (objFind? pes exKey) ∧
    (jGet (jGet r psKey) exKey).isArr = true ∧
    jGet (jGet r psKey) conKey = optCoerceVal (objFind? pes conKey) ∧
    (jGet (jGet r psKey) conKey).isArr = true := by
  have hnp : normalizeParsed (.obj es) = .ok r := by
    simpa [parse_grok_response, h1] using h
  have hep : (objFind? es epKey).isSome := by
    obtain ⟨es2, pes2, heq, hep2, hps2⟩ := normalizeParsed_ok_shape _ r hnp
    have hes : es = es2 := by injection heq
    rw [hes]
    exact hep2
  obtain ⟨es', pes', hrun, hpsr, hepr, hsumr, hestr, htipr, hfld, hreq, hexr, hconr⟩ :=
    normalizeParsed_obj es pes hep hps
  have hr : r = .obj es' := by
    rw [hnp] at hrun
    injection hrun
  subst hr
  have hgr : jGet (.obj es') psKey = .obj pes' := by
    simp [jGet, hpsr]
  rw [hgr]
  refine ⟨by simp [jGet, hreq], ?_, by simp [jGet, hexr], ?_, by simp [jGet, hconr], ?_⟩
  · simp [jGet, hreq, reqCoerceVal_isArr]
  · simp [jGet, hexr, optCoerceVal_isArr]
  · simp [jGet, hconr, optCoerceVal_isArr]

set_option maxRecDepth 100000 in
/-- C5 (witness): the reply of spec testable property 7 — `requirements`
supplied as the bare string `"r"` is wrapped to `["r"]`. -/
theorem claim_C5_witness :
    jGet (jGet (Json.obj
        [(epKey, .str ['X']),
         (psKey, .obj [(contextKey, .str ['c']), (objectiveKey, .str ['o']),
           (reqKey, .arr [.str ['r']]), (taKey, .str ['t']), (ofKey, .str ['f']),
           (tsKey, .str ['s']), (exKey, .arr []), (conKey, .arr [])]),
         (summaryKey, defaultSummary), (estKey, .num 75), (tipsKey, defaultTips)]) psKey)
      reqKey = reqCoerceVal (Json.str ['r']) :=
  (claim_C5
    ("\x7b\"enhanced_prompt\":\"X\",\"prompt_structure\":\x7b\"context\":\"c\",\"objective\":\"o\",\"requirements\":\"r\",\"target_audience\":\"t\",\"output_format\":\"f\",\"tone_and_style\":\"s\"\x7d\x7d").toList
    (Json.obj
      [(epKey, .str ['X']),
       (psKey, .obj [(contextKey, .str ['c']), (objectiveKey, .str ['o']),
         (reqKey, .arr [.str ['r']]), (taKey, .str ['t']), (ofKey, .str ['f']),
         (tsKey, .str ['s']), (exKey, .arr []), (conKey, .arr [])]),
       (summaryKey, defaultSummary), (estKey, .num 75), (tipsKey, defaultTips)])
    [(epKey, .str ['X']),
     (psKey, .obj [(contextKey, .str ['c']), (objectiveKey, .str ['o']),
       (reqKey, .str ['r']), (taKey, .str ['t']), (ofKey, .str ['f']),
       (tsKey, .str ['s'])])]
    [(contextKey, .str ['c']), (objectiveKey, .str ['o']), (reqKey, .str ['r']),
     (taKey, .str ['t']), (ofKey, .str ['f']), (tsKey, .str ['s'])]
    (by rfl) (by rfl) (by rfl)).1

/-- C6: when the decoded mapping holds both required fields but omits
`improvement_summary`, `estimated_improvement` or `usage_tips`, the
normalized result holds the fixed three-item generic summary
(`defaultSummary`), the integer 75, and the fixed two-item generic tips
(`defaultTips`) respectively; values the upstream reply supplies for
these keys are kept unchanged (`Option.getD` states both at once). -/
theorem claim_C6 (g : List Char) (r : Json) (es : List (List Char × Json))
    (h : parse_grok_response g = .ok r)
    (h1 : jsonParse (stripMarkers g) = some (.obj es)) :
    jGet r summaryKey = (objFind? es summaryKey).getD defaultSummary ∧
    jGet r estKey = (objFind? es estKey).getD (.num 75) ∧
    jGet r tipsKey = (objFind? es tipsKey).getD defaultTips := by
  have hnp : normalizeParsed (.obj es) = .ok r := by
    simpa [parse_grok_response, h1] using h
  obtain ⟨es2, pes2, heq, hep2, hps2⟩ := normalizeParsed_ok_shape _ r hnp
  have hes : es = es2 := by injection heq
  subst hes
  obtain ⟨es', pes', hrun, hpsr, hepr, hsumr, hestr, htipr, -⟩ :=
    normalizeParsed_obj es pes2 hep2 hps2
  have hr : r = .obj es' := by
    rw [hnp] at hrun
    injection hrun
  subst hr
  exact ⟨by simp [jGet, hsumr], by simp [jGet, hestr], by simp [jGet, htipr]⟩

set_option maxRecDepth 100000 in
/-- C6 (witness): on `{"enhanced_prompt": "x", "prompt_structure": {},
"estimated_improvement": 90}` the supplied 90 is kept and the omitted
summary/tips get their generic defaults. -/
theorem claim_C6_witness :
    jGet (Json.obj
      [(epKey, .str ['x']),
       (psKey, .obj [(contextKey, .str (notSpecified contextKey)),
         (objectiveKey, .str (notSpecified objectiveKey)),
         (reqKey, .arr [.str (notSpecified reqKey)]),
         (taKey, .str (notSpecified taKey)), (ofKey, .str (notSpecified ofKey)),
         (tsKey, .str (notSpecified tsKey)), (exKey, .arr []), (conKey, .arr [])]),
       (estKey, .num 90), (summaryKey, defaultSummary), (tipsKey, defaultTips)])
      summaryKey = defaultSummary ∧
    jGet (Json.obj
      [(epKey, .str ['x']),
       (psKey, .obj [(contextKey, .str (notSpecified contextKey)),
         (objectiveKey, .str (notSpecified objectiveKey)),
         (reqKey, .arr [.str (notSpecified reqKey)]),
         (taKey, .str (notSpecified taKey)), (ofKey, .str (notSpecified ofKey)),
         (tsKey, .str (notSpecified tsKey)), (exKey, .arr []), (conKey, .arr [])]),
       (estKey, .num 90), (summaryKey, defaultSummary), (tipsKey, defaultTips)])
      estKey = .num 90 :=
  ⟨(claim_C6
      ("\x7b\"enhanced_prompt\": \"x\", \"prompt_structure\": \x7b\x7d, \"estimated_improvement\": 90\x7d").toList
      _ [(epKey, .str ['x']), (psKey, .obj []), (estKey, .num 90)] (by rfl) (by rfl)).1,
   (claim_C6
      ("\x7b\"enhanced_prompt\": \"x\", \"prompt_structure\": \x7b\x7d, \"estimated_improvement\": 90\x7d").toList
      _ [(epKey, .str ['x']), (psKey, .obj []), (estKey, .num 90)] (by rfl) (by rfl)).2.1⟩

/-- C8: every response `enhance_prompt` returns carries
`word_count_original` equal to the number of whitespace-separated tokens
of its own `original_prompt`, and `word_count_enhanced` equal to the
token count of its own (finally chosen) `enhanced_prompt`. -/
theorem claim_C8 (original : List Char) (ety aud : String) (ur : UpstreamResult)
    (r : EnhancedPromptResponse) (h : enhance_prompt original ety aud ur = .ok r) :
    r.word_count_original = (pyWords r.original_prompt).length ∧
    r.word_count_enhanced = (pyWords r.enhanced_prompt).length := by
  unfold enhance_prompt at h
  split at h
  · simp only [reduceCtorEq] at h
  · split at h
    · simp at h
    · split at h
      · split at h
        · simp only [reduceCtorEq] at h
        · split at h
          · split at h
            · simp at h
            · split at h
              · split at h
                · simp only [reduceCtorEq] at h
                · split at h
                  · split at h
                    · injection h with h'
                      subst h'
                      exact ⟨rfl, rfl⟩
                    · simp at h
                  · simp only [reduceCtorEq] at h
              · simp at h
          · simp only [reduceCtorEq] at h
      · simp at h

/-- The response produced by the C8 witness run. -/
def c8Resp : EnhancedPromptResponse :=
  { original_prompt := "hello world there".toList,
    enhanced_prompt := "a b c d".toList,
    prompt_structure :=
      { context := ['c'], objective := ['o'], requirements := [['r']],
        target_audience := ['t'], output_format := ['f'], tone_and_style := ['s'],
        examples := [], constraints := [] },
    improvement_summary :=
      ["Prompt structure enhanced".toList, "Context and requirements added".toList,
       "Output format specified".toList],
    estimated_improvement := 75, enhancement_type := "general",
    word_count_original := 3, word_count_enhanced := 4,
    usage_tips :=
      ["Use this enhanced prompt as-is".toList,
       "Adjust requirements based on your specific needs".toList] }

set_option maxRecDepth 100000 in
/-- C8 (witness): a complete successful run on the prompt
`"hello world there"` with a well-formed upstream reply. -/
theorem claim_C8_witness :
    c8Resp.word_count_original = (pyWords c8Resp.original_prompt).length ∧
    c8Resp.word_count_enhanced = (pyWords c8Resp.enhanced_prompt).length :=
  claim_C8 "hello world there".toList "general" "general"
    (.ok200 ("\x7b\"enhanced_prompt\": \"a b c d\", \"prompt_structure\": \x7b\"context\": \"c\", \"objective\": \"o\", \"requirements\": [\"r\"], \"target_audience\": \"t\", \"output_format\": \"f\", \"tone_and_style\": \"s\"\x7d\x7d").toList)
    c8Resp (by rfl)

/-- C9: every response returned by `enhance_prompt` has
`estimated_improvement` within 1..100 (the pydantic `ge=1, le=100`
bounds), and when the normalized reply carries an (integer-coercible)
`estimated_improvement` outside that range, construction fails and no
response is returned. -/
theorem claim_C9 :
    (∀ (original : List Char) (ety aud : String) (ur : UpstreamResult)
        (r : EnhancedPromptResponse),
      enhance_prompt original ety aud ur = .ok r →
      1 ≤ r.estimated_improvement ∧ r.estimated_improvement ≤ 100) ∧
    (∀ (original : List Char) (ety aud : String) (ur : UpstreamResult)
        (g : List Char) (es : List (List Char × Json)) (n : Int),
      call_grok_api ur = .ok g →
      parse_grok_response g = .ok (.obj es) →
      pyIntOf (objGetD es estKey (.num 75)) = some n →
      (n < 1 ∨ 100 < n) →
      (enhance_prompt original ety aud ur).isOk = false) := by
  constructor
  · intro original ety aud ur r h
    unfold enhance_prompt at h
    split at h
    · simp only [reduceCtorEq] at h
    · split at h
      · simp at h
      · split at h
        · split at h
          · simp only [reduceCtorEq] at h
          · split at h
            · split at h
              · simp at h
              · split at h
                · split at h
                  · simp only [reduceCtorEq] at h
                  · split at h
                    · split at h
                      · injection h with h'
                        subst h'
                        rename_i hcond
                        simpa using hcond
                      · simp at h
                    · simp only [reduceCtorEq] at h
                · simp at h
            · simp only [reduceCtorEq] at h
        · simp at h
  · intro original ety aud ur g es n hcall hp hint hrange
    simp only [enhance_prompt, hcall, hp]
    split
    · rfl
    · split
      · split
        · rfl
        · split
          · split
            · rfl
            · split
              · split
                · rename_i vInt vS vT hEst hSumm hTips hcond
                  exfalso
                  rw [hint] at hEst
                  injection hEst with hen
                  subst hen
                  simp only [Bool.and_eq_true, decide_eq_true_eq] at hcond
                  omega
                · rfl
              · rfl
          · rfl
      · rfl

set_option maxRecDepth 100000 in
/-- C9 (witness): an upstream reply carrying
`"estimated_improvement": 150` makes the construction fail. -/
theorem claim_C9_witness :
    (enhance_prompt ['h'] "general" "general"
      (.ok200 ("\x7b\"enhanced_prompt\": \"a b\", \"prompt_structure\": \x7b\x7d, \"estimated_improvement\": 150\x7d").toList)).isOk = false :=
  claim_C9.2 ['h'] "general" "general"
    (.ok200 ("\x7b\"enhanced_prompt\": \"a b\", \"prompt_structure\": \x7b\x7d, \"estimated_improvement\": 150\x7d").toList)
    _ _ 150 rfl (by rfl) (by rfl) (Or.inr (by omega))

/-- C1 (counterexample): an upstream timeout is NOT absorbed into a
fallback response — `enhance_prompt` raises, contradicting the claim
that upstream failures are never surfaced to the caller. -/
theorem claim_C1_counterexample :
    enhance_prompt "write a blog post".toList "creative" "beginner" .timeout =
      .error .upstreamError := rfl

/-- C1 (amended): this implementation has no fallback synthesizer;
`enhance_prompt` re-raises every upstream-call failure (transport error,
timeout, non-200 status, undecodable body) and every normalizer failure
on the reply to its caller (the `except ... raise` of services.py lines
99-101; main.py then maps the exception to an HTTP error response). -/
theorem claim_C1_amended :
    (∀ (original : List Char) (ety aud : String) (ur : UpstreamResult),
      call_grok_api ur = .error .upstreamError →
      enhance_prompt original ety aud ur = .error .upstreamError) ∧
    (∀ (original : List Char) (ety aud : String) (ur : UpstreamResult)
        (g : List Char) (e : PyErr),
      call_grok_api ur = .ok g → parse_grok_response g = .error e →
      enhance_prompt original ety aud ur = .error e) := by
  constructor
  · intro original ety aud ur hc
    simp [enhance_prompt, hc]
  · intro original ety aud ur g e hc hp
    simp [enhance_prompt, hc, hp]

/-- C1 (witness): the amended theorem applied to a transport error and
to an unparsable 200 reply. -/
theorem claim_C1_witness :
    enhance_prompt ['x'] "general" "general" .transportError = .error .upstreamError ∧
    enhance_prompt ['x'] "general" "general" (.ok200 "garbage".toList) =
      .error .valueError :=
  ⟨claim_C1_amended.1 ['x'] "general" "general" .transportError rfl,
   claim_C1_amended.2 ['x'] "general" "general" (.ok200 "garbage".toList)
     "garbage".toList .valueError rfl rfl⟩

/-- C7: `_create_system_prompt` is a pure function of
`(enhancement_type, target_audience)` whose output is exactly the fixed
base block followed by the fragment selected by `enhancement_type` and
the fragment selected by `target_audience`; a value outside either
enumeration selects that axis's `"general"` fragment. -/
theorem claim_C7 :
    (∀ ety aud : String, create_system_prompt ety aud =
      basePrompt
        ++ dictGetD typeSpecific ety (dictGetD typeSpecific "general" "")
        ++ dictGetD audienceSpecific aud (dictGetD audienceSpecific "general" "")) ∧
    (∀ ety aud : String, (typeSpecific.find? fun p => p.1 = ety) = none →
      create_system_prompt ety aud = create_system_prompt "general" aud) ∧
    (∀ ety aud : String, (audienceSpecific.find? fun p => p.1 = aud) = none →
      create_system_prompt ety aud = create_system_prompt ety "general") := by
  refine ⟨fun ety aud => rfl, ?_, ?_⟩
  · intro ety aud h
    unfold create_system_prompt dictGetD
    rw [h]
    rfl
  · intro ety aud h
    unfold create_system_prompt dictGetD
    rw [h]
    rfl

/-- C7 (witness): unknown values on either axis fall back to the
`"general"` fragment. -/
theorem claim_C7_witness :
    create_system_prompt "weird" "expert" = create_system_prompt "general" "expert" ∧
    create_system_prompt "creative" "nobody" = create_system_prompt "creative" "general" :=
  ⟨claim_C7.2.1 "weird" "expert" rfl, claim_C7.2.2 "creative" "nobody" rfl⟩

/-! ### What the JSON parser consumes (needed to relate fenced and
unfenced inputs through the marker stripping) -/

/-- `l` is `pre ++ x :: rest`: the segment consumed before `rest` is
nonempty and ends in `x`. -/
def endsBefore (l : List Char) (x : Char) (rest : List Char) : Prop :=
  ∃ pre, l = pre ++ x :: rest

theorem endsBefore_here (x : Char) (rest : List Char) : endsBefore (x :: rest) x rest :=
  ⟨[], rfl⟩

theorem endsBefore_cons (c : Char) {l : List Char} {x : Char} {rest : List Char}
    (h : endsBefore l x rest) : endsBefore (c :: l) x rest := by
  obtain ⟨pre, hpre⟩ := h
  exact ⟨c :: pre, by simp [hpre]⟩

theorem endsBefore_append (w : List Char) {l : List Char} {x : Char} {rest : List Char}
    (h : endsBefore l x rest) : endsBefore (w ++ l) x rest := by
  obtain ⟨pre, hpre⟩ := h
  exact ⟨w ++ pre, by simp [hpre]⟩

theorem endsBefore_trans {l : List Char} {x y : Char} {m rest : List Char}
    (h1 : endsBefore l x m) (h2 : endsBefore m y rest) : endsBefore l y rest := by
  obtain ⟨p1, hp1⟩ := h1
  obtain ⟨p2, hp2⟩ := h2
  exact ⟨p1 ++ x :: p2, by simp [hp1, hp2]⟩

theorem skipWs_decomp (l : List Char) : ∃ w, l = w ++ skipWs l := by
  induction l with
  | nil => refine ⟨[], rfl⟩
  | cons c t ih =>
    by_cases h : jsonWs c
    · obtain ⟨w, hw⟩ := ih
      exact ⟨c :: w, by rw [skipWs, if_pos h]; simpa using hw⟩
    · exact ⟨[], by rw [skipWs, if_neg h]; rfl⟩

theorem endsBefore_skipWs {l : List Char} {x : Char} {rest : List Char}
    (h : endsBefore (skipWs l) x rest) : endsBefore l x rest := by
  obtain ⟨w, hw⟩ := skipWs_decomp l
  rw [hw]
  exact endsBefore_append w h

theorem skipWs_eq_nil {r : List Char} (h : skipWs r = []) : ∀ c ∈ r, jsonWs c = true := by
  induction r with
  | nil => simp
  | cons c t ih =>
    intro d hd
    by_cases hc : jsonWs c
    · rw [skipWs, if_pos hc] at h
      rcases List.mem_cons.mp hd with h1 | h1
      · rwa [h1]
      · exact ih h d h1
    · rw [skipWs, if_neg hc] at h
      simp only [reduceCtorEq] at h

theorem isPrefixOf_eq_append {p l : List Char} (h : p.isPrefixOf l = true) :
    l = p ++ l.drop p.length := by
  induction p generalizing l with
  | nil => simp
  | cons a p ih =>
    cases l with
    | nil => simp [List.isPrefixOf] at h
    | cons b t =>
      simp only [beq_iff_eq, List.isPrefixOf, Bool.and_eq_true] at h
      obtain ⟨rfl, hrest⟩ := h
      simpa using ih hrest

theorem parseStringBody_consumed :
    ∀ (n : Nat) (bl : List Char), bl.length ≤ n → ∀ s r,
      parseStringBody bl = some (s, r) → endsBefore bl '"' r := by
  intro n
  induction n with
  | zero =>
    intro bl hlen s r h
    rw [List.length_eq_zero.mp (Nat.le_zero.mp hlen)] at h
    simp [parseStringBody] at h
  | succ n ih =>
    intro bl hlen s r h
    unfold parseStringBody at h
    split at h
    · simp at h
    · split at h
      · simp only [reduceCtorEq] at h
      · split at h
        · rename_i o1 o2 c s2 r2 hesc hrec
          injection h with h'
          injection h' with h1 h2
          subst h2
          refine endsBefore_cons _ (endsBefore_cons _ (ih _ ?_ s2 _ hrec))
          simp at hlen
          omega
        · simp at h
    · split at h
      · rename_i hc
        injection h with h'
        injection h' with h1 h2
        subst h2 hc
        exact endsBefore_here _ _
      · split at h
        · simp only [reduceCtorEq] at h
        · split at h
          · rename_i s2 r2 hrec
            injection h with h'
            injection h' with h1 h2
            subst h2
            exact endsBefore_cons _ (ih _ (by simp at hlen; omega) s2 _ hrec)
          · simp at h

theorem parseDigits_consumed {l ds rest : List Char}
    (h : parseDigits l = some (ds, rest)) :
    ∃ x, endsBefore l x rest ∧ x.isDigit = true := by
  unfold parseDigits at h
  split at h
  · simp only [reduceCtorEq] at h
  · rename_i hemp
    split at h
    · simp at h
    · split at h
      · simp only [reduceCtorEq] at h
      · simp at h
      · simp only [reduceCtorEq] at h
      · injection h with h'
        injection h' with h1 h2
        have hds : l.takeWhile Char.isDigit ≠ [] := by
          intro hx
          rw [hx] at hemp
          simp at hemp
        have hdd := List.dropLast_append_getLast hds
        refine ⟨(l.takeWhile Char.isDigit).getLast hds,
          ⟨(l.takeWhile Char.isDigit).dropLast, ?_⟩, ?_⟩
        · have hl : l = ((l.takeWhile Char.isDigit).dropLast ++
              [(l.takeWhile Char.isDigit).getLast hds]) ++ l.dropWhile Char.isDigit := by
            rw [hdd, List.takeWhile_append_dropWhile]
          rw [← h2]
          simpa using hl
        · exact List.mem_takeWhile_imp (List.getLast_mem hds)

theorem parseNumber_consumed {l : List Char} {v : Json} {rest : List Char}
    (h : parseNumber l = some (v, rest)) :
    ∃ x, endsBefore l x rest ∧ x.isDigit = true := by
  unfold parseNumber at h
  split at h
  · split at h
    · rename_i ds rest2 hd
      injection h with h'
      injection h' with h1 h2
      subst h2
      obtain ⟨x, hx, hdig⟩ := parseDigits_consumed hd
      exact ⟨x, endsBefore_cons _ hx, hdig⟩
    · simp at h
  · split at h
    · rename_i ds rest2 hd
      injection h with h'
      injection h' with h1 h2
      subst h2
      obtain ⟨x, hx, hdig⟩ := parseDigits_consumed hd
      exact ⟨x, hx, hdig⟩
    · simp only [reduceCtorEq] at h

theorem digit_ne_backtick {x : Char} (hd : x.isDigit = true) : x ≠ '\x60' := by
  intro hx
  rw [hx] at hd
  exact absurd hd (by decide)

/-- What one parse step consumes: a successful `parseVal` consumes a
nonempty segment whose last character is never a backtick; `parseMembers`
and `parseElems` consume up to a closing `}` / `]`. -/
theorem parse_consumed (fuel : Nat) :
    (∀ l v rest, parseVal fuel l = some (v, rest) →
      ∃ x, endsBefore l x rest ∧ x ≠ '\x60') ∧
    (∀ l acc v rest, parseMembers fuel l acc = some (v, rest) →
      endsBefore l '}' rest) ∧
    (∀ l acc v rest, parseElems fuel l acc = some (v, rest) →
      endsBefore l ']' rest) := by
  induction fuel with
  | zero =>
    refine ⟨?_, ?_, ?_⟩
    · intro l v rest h
      simp [parseVal] at h
    · intro l acc v rest h
      simp [parseMembers] at h
    · intro l acc v rest h
      simp [parseElems] at h
  | succ fuel ih =>
    obtain ⟨ihP, ihQ, ihR⟩ := ih
    refine ⟨?_, ?_, ?_⟩
    · -- parseVal
      intro l v rest h
      unfold parseVal at h
      split at h
      · simp at h
      · -- string
        rename_i rest1 heq
        split at h
        · rename_i s2 r2 hsb
          injection h with h'
          injection h' with h1 h2
          subst h2
          refine ⟨'"', endsBefore_skipWs ?_, by decide⟩
          rw [heq]
          exact endsBefore_cons _
            (parseStringBody_consumed rest1.length rest1 le_rfl s2 _ hsb)
        · simp only [reduceCtorEq] at h
      · -- object
        rename_i rest1 heq
        split at h
        · rename_i r2 heq2
          injection h with h'
          injection h' with h1 h2
          subst h2
          refine ⟨'}', endsBefore_skipWs ?_, by decide⟩
          rw [heq]
          refine endsBefore_cons _ (endsBefore_skipWs ?_)
          rw [heq2]
          exact endsBefore_here _ _
        · have hmem := ihQ _ _ _ _ h
          refine ⟨'}', endsBefore_skipWs ?_, by decide⟩
          rw [heq]
          exact endsBefore_cons _ (endsBefore_skipWs hmem)
      · -- array
        rename_i rest1 heq
        split at h
        · rename_i r2 heq2
          injection h with h'
          injection h' with h1 h2
          subst h2
          refine ⟨']', endsBefore_skipWs ?_, by decide⟩
          rw [heq]
          refine endsBefore_cons _ (endsBefore_skipWs ?_)
          rw [heq2]
          exact endsBefore_here _ _
        · have hmem := ihR _ _ _ _ h
          refine ⟨']', endsBefore_skipWs ?_, by decide⟩
          rw [heq]
          exact endsBefore_cons _ (endsBefore_skipWs hmem)
      · -- true
        rename_i rest1 heq
        split at h
        · rename_i hpf
          injection h with h'
          injection h' with h1 h2
          subst h2
          refine ⟨'e', endsBefore_skipWs ?_, by decide⟩
          rw [heq]
          refine endsBefore_cons _ ⟨['r', 'u'], ?_⟩
          simpa using isPrefixOf_eq_append hpf
        · simp at h
      · -- false
        rename_i rest1 heq
        split at h
        · rename_i hpf
          injection h with h'
          injection h' with h1 h2
          subst h2
          refine ⟨'e', endsBefore_skipWs ?_, by decide⟩
          rw [heq]
          refine endsBefore_cons _ ⟨['a', 'l', 's'], ?_⟩
          simpa using isPrefixOf_eq_append hpf
        · simp only [reduceCtorEq] at h
      · -- null
        rename_i rest1 heq
        split at h
        · rename_i hpf
          injection h with h'
          injection h' with h1 h2
          subst h2
          refine ⟨'l', endsBefore_skipWs ?_, by decide⟩
          rw [heq]
          refine endsBefore_cons _ ⟨['u', 'l'], ?_⟩
          simpa using isPrefixOf_eq_append hpf
        · simp at h
      · -- number
        obtain ⟨x, hx, hdig⟩ := parseNumber_consumed h
        exact ⟨x, endsBefore_skipWs hx, digit_ne_backtick hdig⟩
    · -- parseMembers
      intro l acc v rest h
      unfold parseMembers at h
      split at h
      · rename_i rest1
        split at h
        · simp only [reduceCtorEq] at h
        · rename_i key r1 hsb
          split at h
          · rename_i r2 heq1
            split at h
            · simp at h
            · rename_i v2 r3 hpv
              split at h
              · rename_i r4 heq3
                have e1 : endsBefore ('"' :: rest1) '"' r1 :=
                  endsBefore_cons _
                    (parseStringBody_consumed rest1.length rest1 le_rfl key _ hsb)
                have e2 : endsBefore r1 ':' r2 := by
                  refine endsBefore_skipWs ?_
                  rw [heq1]
                  exact endsBefore_here _ _
                obtain ⟨x, e3, -⟩ := ihP _ _ _ hpv
                have e4 : endsBefore r3 ',' r4 := by
                  refine endsBefore_skipWs ?_
                  rw [heq3]
                  exact endsBefore_here _ _
                have e5 : endsBefore r4 '}' rest := endsBefore_skipWs (ihQ _ _ _ _ h)
                exact endsBefore_trans (endsBefore_trans (endsBefore_trans
                  (endsBefore_trans e1 e2) e3) e4) e5
              · rename_i r4 heq3
                injection h with h'
                injection h' with h1 h2
                subst h2
                have e1 : endsBefore ('"' :: rest1) '"' r1 :=
                  endsBefore_cons _
                    (parseStringBody_consumed rest1.length rest1 le_rfl key _ hsb)
                have e2 : endsBefore r1 ':' r2 := by
                  refine endsBefore_skipWs ?_
                  rw [heq1]
                  exact endsBefore_here _ _
                obtain ⟨x, e3, -⟩ := ihP _ _ _ hpv
                have e4 : endsBefore r3 '}' r4 := by
                  refine endsBefore_skipWs ?_
                  rw [heq3]
                  exact endsBefore_here _ _
                exact endsBefore_trans (endsBefore_trans (endsBefore_trans e1 e2) e3) e4
              · simp only [reduceCtorEq] at h
          · simp at h
      · simp only [reduceCtorEq] at h
    · -- parseElems
      intro l acc v rest h
      unfold parseElems at h
      split at h
      · simp at h
      · rename_i v1 r1 hpv
        obtain ⟨x, e1, -⟩ := ihP _ _ _ hpv
        split at h
        · rename_i r2 heq2
          have e2 : endsBefore r1 ',' r2 := by
            refine endsBefore_skipWs ?_
            rw [heq2]
            exact endsBefore_here _ _
          have e3 : endsBefore r2 ']' rest := ihR _ _ _ _ h
          exact endsBefore_trans (endsBefore_trans e1 e2) e3
        · rename_i r2 heq2
          injection h with h'
          injection h' with h1 h2
          subst h2
          have e2 : endsBefore r1 ']' r2 := by
            refine endsBefore_skipWs ?_
            rw [heq2]
            exact endsBefore_here _ _
          exact endsBefore_trans e1 e2
        · simp only [reduceCtorEq] at h

theorem getLast?_mem_self {l : List Char} {a : Char} (h : l.getLast? = some a) : a ∈ l := by
  obtain ⟨hne, rfl⟩ := List.mem_getLast?_eq_getLast (Option.mem_def.mpr h)
  exact List.getLast_mem hne

/-- Shape of a successfully decoded input: a consumed segment whose last
character is not a backtick, followed only by JSON whitespace. -/
theorem jsonParse_shape {s : List Char} {j : Json} (h : jsonParse s = some j) :
    ∃ pre x rest, s = pre ++ x :: rest ∧ x ≠ '\x60' ∧ ∀ c ∈ rest, jsonWs c = true := by
  unfold jsonParse at h
  split at h
  · rename_i v rest hpv
    split at h
    · rename_i hemp
      obtain ⟨x, ⟨pre, hpre⟩, hx⟩ := (parse_consumed (s.length + 1)).1 s v rest hpv
      exact ⟨pre, x, rest, hpre, hx,
        skipWs_eq_nil (List.isEmpty_iff.mp hemp)⟩
    · simp at h
  · simp only [reduceCtorEq] at h

theorem parseVal_backtick (fuel : Nat) (t : List Char) :
    parseVal fuel ('\x60' :: t) = none := by
  cases fuel with
  | zero => rfl
  | succ n => rfl

theorem jsonParse_cons_backtick (t : List Char) : jsonParse ('\x60' :: t) = none := by
  unfold jsonParse
  rw [parseVal_backtick]

theorem jsonWs_pySpace {c : Char} (h : jsonWs c = true) : pyIsSpace c = true := by
  unfold jsonWs at h
  simp only [decide_eq_true_eq, Bool.or_eq_true] at h
  rcases h with ((rfl | rfl) | rfl) | rfl <;> decide

theorem head?_dropWhile_false {p : Char → Bool} {l : List Char} {a : Char}
    (h : (l.dropWhile p).head? = some a) : p a = false := by
  induction l with
  | nil => simp [List.dropWhile] at h
  | cons c t ih =>
    by_cases hc : p c
    · rw [List.dropWhile_cons, if_pos hc] at h
      exact ih h
    · rw [List.dropWhile_cons, if_neg hc] at h
      injection h with h1
      subst h1
      simpa using hc

theorem pyStrip_prefix (l : List Char) : pyStrip l <+: l.dropWhile pyIsSpace := by
  unfold pyStrip
  have h1 : ((l.dropWhile pyIsSpace).reverse.dropWhile pyIsSpace) <:+
      (l.dropWhile pyIsSpace).reverse := List.dropWhile_suffix _
  have h2 := List.reverse_prefix.mpr h1
  rwa [List.reverse_reverse] at h2

theorem pyStrip_head {l : List Char} {c0 : Char} {t : List Char}
    (h : pyStrip l = c0 :: t) : pyIsSpace c0 = false := by
  have hp := pyStrip_prefix l
  rw [h] at hp
  obtain ⟨t', ht⟩ := hp
  apply head?_dropWhile_false (l := l) (p := pyIsSpace) (a := c0)
  rw [← ht]
  simp

theorem pyStrip_getLast {l : List Char} {x : Char}
    (h : (pyStrip l).getLast? = some x) : pyIsSpace x = false := by
  unfold pyStrip at h
  rw [List.getLast?_reverse] at h
  exact head?_dropWhile_false h

theorem pyStrip_eq_self {l : List Char}
    (hh : ∀ c0 t, l = c0 :: t → pyIsSpace c0 = false)
    (hl : ∀ x, l.getLast? = some x → pyIsSpace x = false) :
    pyStrip l = l := by
  cases l with
  | nil => rfl
  | cons c0 t =>
    have h0 : pyIsSpace c0 = false := hh c0 t rfl
    unfold pyStrip
    rw [List.dropWhile_cons, if_neg (by simp [h0])]
    cases hx : (c0 :: t).getLast? with
    | none => simp at hx
    | some x =>
      have hxs : pyIsSpace x = false := hl x hx
      have hrev : (c0 :: t).reverse.head? = some x := by
        rw [List.head?_reverse]
        exact hx
      cases hr : (c0 :: t).reverse with
      | nil => simp at hr
      | cons y ys =>
        have hy : y = x := by
          rw [hr] at hrev
          injection hrev
        subst hy
        rw [List.dropWhile_cons, if_neg (by simp [hxs]), ← hr, List.reverse_reverse]

theorem pyStrip_idem (l : List Char) : pyStrip (pyStrip l) = pyStrip l :=
  pyStrip_eq_self (fun _ _ h => pyStrip_head h) (fun _ h => pyStrip_getLast h)

/-- A stripped text that decodes starts with a non-backtick character
and ends with a non-backtick character. -/
theorem jsonParse_pyStrip_facts {c : List Char} {j : Json}
    (h : jsonParse (pyStrip c) = some j) :
    ∃ s0 t0, pyStrip c = s0 :: t0 ∧ s0 ≠ '\x60' ∧
      ∃ pre x, pyStrip c = pre ++ [x] ∧ x ≠ '\x60' := by
  cases hs : pyStrip c with
  | nil =>
    rw [hs] at h
    have : jsonParse ([] : List Char) = none := rfl
    rw [this] at h
    simp at h
  | cons s0 t0 =>
    refine ⟨s0, t0, rfl, ?_, ?_⟩
    · intro hb
      subst hb
      rw [hs, jsonParse_cons_backtick] at h
      simp only [reduceCtorEq] at h
    · rw [hs] at h
      obtain ⟨pre, x, rest, hsplit, hxbt, hws⟩ := jsonParse_shape h
      have hrest : rest = [] := by
        cases hrr : rest with
        | nil => rfl
        | cons r0 rs =>
          subst hrr
          have h1 : (s0 :: t0).getLast? = (x :: r0 :: rs).getLast? := by
            rw [hsplit]
            exact List.getLast?_append_of_ne_nil pre (by simp)
          cases hgl : (r0 :: rs).getLast? with
          | none => simp at hgl
          | some y =>
            have hy : y ∈ r0 :: rs := getLast?_mem_self hgl
            have hyw : jsonWs y = true := hws y hy
            have hysp : pyIsSpace y = true := jsonWs_pySpace hyw
            have hfalse : pyIsSpace y = false := by
              apply pyStrip_getLast (l := c)
              rw [hs, h1, List.getLast?_cons_cons, hgl]
            rw [hfalse] at hysp
            exact absurd hysp (by simp)
      subst hrest
      exact ⟨pre, x, hsplit, hxbt⟩

/-- On a text whose stripped form decodes, the marker stripping is just
the strip: no fence prefix/suffix can be present. -/
theorem stripMarkers_of_parsed {c : List Char} {j : Json}
    (h : jsonParse (pyStrip c) = some j) : stripMarkers c = pyStrip c := by
  obtain ⟨s0, t0, hs, hs0bt, pre, x, hsplit, hxbt⟩ := jsonParse_pyStrip_facts h
  have hns1 : pyStartswith (pyStrip c) fenceJson = false := by
    rw [hs]
    have hP : fenceJson = '\x60' :: "``json".toList := rfl
    unfold pyStartswith
    rw [hP]
    simp [List.isPrefixOf, Ne.symm hs0bt]
  have hns2 : pyStartswith (pyStrip c) fence = false := by
    rw [hs]
    have hP : fence = '\x60' :: "``".toList := rfl
    unfold pyStartswith
    rw [hP]
    simp [List.isPrefixOf, Ne.symm hs0bt]
  have hnsE : pyEndswith (pyStrip c) fence = false := by
    unfold pyEndswith
    rw [hsplit]
    have hrev : (pre ++ [x]).reverse = x :: pre.reverse := by simp
    have hB : fence.reverse = '\x60' :: "``".toList := rfl
    rw [hrev, hB]
    simp [List.isPrefixOf, Ne.symm hxbt]
  simp only [stripMarkers]
  rw [hns1]
  simp only [Bool.false_eq_true, if_false]
  rw [hns2]
  simp only [Bool.false_eq_true, if_false]
  rw [hnsE]
  simp only [Bool.false_eq_true, if_false]
  exact pyStrip_idem c

/-- On a fenced reply `"```json" + c + "```"` whose inner content
strips-and-decodes, the marker stripping recovers exactly the stripped
content. -/
theorem stripMarkers_wrap {c : List Char} {j : Json}
    (h : jsonParse (pyStrip c) = some j) :
    stripMarkers (fenceJson ++ c ++ fence) = pyStrip c := by
  obtain ⟨s0, t0, hs, hs0bt, pre, x, hsplit, hxbt⟩ := jsonParse_pyStrip_facts h
  have hcne : c ≠ [] := by
    intro hcn
    subst hcn
    have hnil : pyStrip ([] : List Char) = [] := rfl
    rw [hnil] at hs
    exact absurd hs (by simp)
  obtain ⟨c0, tc, hc⟩ := List.exists_cons_of_ne_nil hcne
  have hc0bt : c0 ≠ '\x60' := by
    by_cases hsp : pyIsSpace c0 = true
    · intro he
      subst he
      exact absurd hsp (by decide)
    · have hd : c.dropWhile pyIsSpace = c0 :: tc := by
        rw [hc, List.dropWhile_cons, if_neg hsp]
      have hp := pyStrip_prefix c
      rw [hs, hd] at hp
      obtain ⟨t', ht⟩ := hp
      rw [List.cons_append] at ht
      injection ht with h1 h2
      rw [← h1]
      exact hs0bt
  have hWhead : fenceJson ++ (c ++ fence) =
      '\x60' :: ("``json".toList ++ (c ++ fence)) := rfl
  have hWlast : (fenceJson ++ (c ++ fence)).getLast? = some '\x60' := by
    have h1 : (fenceJson ++ (c ++ fence)).getLast? = (c ++ fence).getLast? :=
      List.getLast?_append_of_ne_nil _ (by simp [fence])
    have h2 : (c ++ fence).getLast? = fence.getLast? :=
      List.getLast?_append_of_ne_nil _ (by decide)
    rw [h1, h2]
    rfl
  have hstripW : pyStrip (fenceJson ++ (c ++ fence)) = fenceJson ++ (c ++ fence) :=
    pyStrip_eq_self
      (fun a t hat => by
        rw [hWhead] at hat
        injection hat with h1 h2
        rw [← h1]
        decide)
      (fun y hy => by
        rw [hWlast] at hy
        injection hy with h1
        rw [← h1]
        decide)
  have e1 : pyStartswith (fenceJson ++ (c ++ fence)) fenceJson = true := by
    unfold pyStartswith
    exact List.isPrefixOf_iff_prefix.mpr ⟨c ++ fence, rfl⟩
  have e2 : (fenceJson ++ (c ++ fence)).drop 7 = c ++ fence := by
    rw [show (7 : Nat) = fenceJson.length from rfl, List.drop_left]
  have e3 : pyStartswith (c ++ fence) fence = false := by
    unfold pyStartswith
    rw [hc, List.cons_append, show fence = '\x60' :: "``".toList from rfl]
    simp [List.isPrefixOf, Ne.symm hc0bt]
  have e4 : pyEndswith (c ++ fence) fence = true := by
    unfold pyEndswith
    rw [List.reverse_append]
    exact List.isPrefixOf_iff_prefix.mpr (List.prefix_append _ _)
  have e5 : (c ++ fence).take ((c ++ fence).length - 3) = c := by
    have hlen : (c ++ fence).length - 3 = c.length := by simp [fence]
    rw [hlen, List.take_left]
  simp [stripMarkers, hstripW, e1, e2, e3, e4, e5]
  have hlen2 : c.length + fence.length - 3 = c.length := by simp [fence]
  rw [hlen2, List.take_left]

set_option maxRecDepth 400000 in
/-- C3 (counterexample): the claim fails for language tags other than
`json`.  Wrapping a parsable reply in a fenced block tagged
`javascript` leaves the tag text in place (only the bare `"```"` is
stripped), so decoding fails with a ParseError, while the unwrapped
reply normalizes successfully. -/
theorem claim_C3_counterexample :
    parse_grok_response
      ("```javascript\x7b\"enhanced_prompt\":\"x\",\"prompt_structure\":\x7b\x7d\x7d```").toList =
      .error .valueError ∧
    (parse_grok_response
      ("\x7b\"enhanced_prompt\":\"x\",\"prompt_structure\":\x7b\x7d\x7d").toList).isOk = true ∧
    parse_grok_response
      ("```javascript\x7b\"enhanced_prompt\":\"x\",\"prompt_structure\":\x7b\x7d\x7d```").toList ≠
    parse_grok_response
      ("\x7b\"enhanced_prompt\":\"x\",\"prompt_structure\":\x7b\x7d\x7d").toList := by
  refine ⟨rfl, rfl, ?_⟩
  intro heq
  have h1 : parse_grok_response
      ("```javascript\x7b\"enhanced_prompt\":\"x\",\"prompt_structure\":\x7b\x7d\x7d```").toList =
      .error .valueError := rfl
  have h2 : (parse_grok_response
      ("\x7b\"enhanced_prompt\":\"x\",\"prompt_structure\":\x7b\x7d\x7d").toList).isOk = true := rfl
  rw [h1] at heq
  rw [← heq] at h2
  simp [Except.isOk, Except.toBool] at h2

/-- C3 (amended): for content whose stripped form decodes as JSON,
wrapping it in a fenced block with the `json` language tag specifically
(`fenceJson = "```json"` in front, `fence = "```"` behind) yields
exactly the same normalizer result as the unwrapped content.  (Any other
language tag is not stripped — see the counterexample.) -/
theorem claim_C3_amended (c : List Char) (j : Json)
    (h : jsonParse (pyStrip c) = some j) :
    parse_grok_response (fenceJson ++ c ++ fence) = parse_grok_response c := by
  have h1 := stripMarkers_wrap h
  have h2 := stripMarkers_of_parsed h
  simp only [parse_grok_response, h1, h2]

set_option maxRecDepth 400000 in
/-- C3 (witness): the amended theorem applied to a concrete reply with
surrounding whitespace. -/
theorem claim_C3_witness :
    parse_grok_response
      (fenceJson ++ (" \x7b\"enhanced_prompt\": \"x\", \"prompt_structure\": \x7b\x7d\x7d ").toList ++ fence) =
    parse_grok_response
      (" \x7b\"enhanced_prompt\": \"x\", \"prompt_structure\": \x7b\x7d\x7d ").toList :=
  claim_C3_amended _ (.obj [(epKey, .str ['x']), (psKey, .obj [])]) (by rfl)
